import Mathlib

/-!
Verification of the genAIBiz diary-interpolation core against its
natural-language specification.

The Python sources under `src/` are shallowly embedded: strings are modelled
as `List Char` (`Str`), pure functions become Lean functions, exceptions
become `Except`/sum-shaped results, and the two vector-index queries issued
by `Retriever.search` are passed in as explicit `Except`-valued inputs.
Notes on fidelity:

* Python `str.strip()` strips Unicode whitespace; the model strips the
  whitespace characters that can actually occur in this system's data
  (ASCII whitespace and the ideographic space U+3000).
* Python `str.splitlines()` splits on several terminators; every string
  built or consumed by this code uses only `"\n"`, which is what the model
  splits on.
* Floating-point similarity scores are threaded through the Python code
  unchanged and never inspected; they are omitted from the match/passage
  records.  Numeric timestamps are modelled as exact scaled decimals.
-/

set_option maxRecDepth 40000

abbrev Str := List Char

/-- Whitespace characters recognised by the model of Python `str.strip`. -/
def pyWSChar (c : Char) : Bool :=
  c = ' ' || c = '\t' || c = '\n' || c = '\r' || c = '\x0b' || c = '\x0c' || c = '　'

/-- Model of Python `str.lstrip()`. -/
def pyLStrip (s : Str) : Str := s.dropWhile pyWSChar

/-- Model of Python `str.rstrip()`. -/
def pyRStrip (s : Str) : Str := s.rdropWhile pyWSChar

/-- Model of Python `str.strip()` (strip whitespace from both ends). -/
def pyStrip (s : Str) : Str := pyLStrip (pyRStrip s)

/-- Model of Python `str.strip(cs)`: strip any of the characters `cs` from both ends. -/
def stripSet (cs : Str) (s : Str) : Str :=
  (s.dropWhile (fun c => decide (c ∈ cs))).rdropWhile (fun c => decide (c ∈ cs))

/-- Model of Python `str.rstrip(cs)`. -/
def rstripSet (cs : Str) (s : Str) : Str := s.rdropWhile (fun c => decide (c ∈ cs))

/-- Split at every newline character; always returns one more chunk than there
are newlines (so a trailing newline yields a trailing empty chunk). -/
def splitNL : Str → List Str
  | [] => [[]]
  | c :: rest =>
    if c = '\n' then [] :: splitNL rest
    else
      match splitNL rest with
      | [] => [[c]]
      | l :: ls => (c :: l) :: ls

/-- Model of Python `str.splitlines()` for `"\n"`-separated text: like `splitNL`
but the empty string gives no lines and a trailing newline adds no empty line. -/
def pySplitlines (s : Str) : List Str :=
  let ps := splitNL s
  if ps.getLast? = some [] then ps.dropLast else ps

/-- Model of Python `"\n".join(...)`. -/
def joinNL : List Str → Str
  | [] => []
  | [l] => l
  | l :: ls => l ++ '\n' :: joinNL ls

/-- Decimal digits of a natural number. -/
def natDigits (n : Nat) : Str := Nat.toDigits 10 n

/-- Model of Python `f"{n:02d}"`: zero-pad to (at least) two digits. -/
def fmt02 (n : Nat) : Str := if n < 10 then '0' :: natDigits n else natDigits n

/-- Zero-pad to (at least) four digits (used by `strftime("%Y")`). -/
def pad4 (n : Nat) : Str := List.replicate (4 - (natDigits n).length) '0' ++ natDigits n

/-- Model of the Python substring test `w in t`. -/
def containsSub (t w : Str) : Bool := decide (w <:+: t)

/-- Python truthiness-driven `a or b` on strings: `b` when `a` is empty. -/
def pyOr (a b : Str) : Str := if a = [] then b else a

/-- Model of `_safe_str` from `src/rag_chain.py`: `""` for `None`, otherwise
the stripped string (all values reaching it in this system are strings). -/
def safe_str (v : Option Str) : Str := pyStrip (v.getD [])

/-! ## ContextBuilder: `build_context` (src/rag_chain.py lines 49-91)

Input items are either strings or dicts.  Dict values in this system are
rendered strings; each of the keys inspected by the code is modelled as an
optional string field.  When both `text` and `body` are falsy the code falls
back to `str(passage)`, the Python rendering of the whole dict — always a
nonempty brace-delimited string; the model fixes one such rendering
(`mapRepr`), and nothing downstream depends on more than its nonblankness. -/

structure PMap where
  text : Option Str := none
  body : Option Str := none
  date : Option Str := none
  source : Option Str := none
  metadata : Option Str := none
  score : Option Str := none

inductive PassageIn
  | str (s : Str)
  | map (m : PMap)

def reprField (k : String) (v : Option Str) : List Str :=
  match v with
  | none => []
  | some s => [k.data ++ ": ".data ++ s]

def mapRepr (m : PMap) : Str :=
  "\x7b".data ++
    List.intercalate ", ".data
      (reprField "text" m.text ++ reprField "body" m.body ++ reprField "date" m.date ++
        reprField "source" m.source ++ reprField "metadata" m.metadata ++
        reprField "score" m.score) ++
  "\x7d".data

/-- `_safe_str(passage.get("text") or passage.get("body") or passage)`. -/
def extractMapText (m : PMap) : Str :=
  pyStrip (pyOr (m.text.getD []) (pyOr (m.body.getD []) (mapRepr m)))

/-- The `" / "`-joined nonempty rendered values of the keys
`date, source, metadata, score`, in that order (`None` values skipped). -/
def metaOf (m : PMap) : Str :=
  List.intercalate " / ".data
    (([m.date, m.source, m.metadata, m.score].filterMap (fun v => v.map pyStrip)).filter
      (fun s => s ≠ []))

/-- The `(text, meta)` pair the loop body of `build_context` computes for one item. -/
def entryOf (p : PassageIn) : Str × Str :=
  match p with
  | .str s => (pyStrip s, [])
  | .map m => (extractMapText m, metaOf m)

/-- One numbered output line: `f"{idx:02d}. {text}"`, plus the parenthesised
meta information when present. -/
def renderLine (idx : Nat) (p : PassageIn) : Str :=
  let e := entryOf p
  let numbered := fmt02 idx ++ ". ".data ++ e.1
  if e.2 ≠ [] then numbered ++ "（".data ++ e.2 ++ "）".data else numbered

/-- The `lines` list accumulated by the `for idx, passage in enumerate(passages, start=1)`
loop: items whose extracted text is empty are skipped, but `idx` advances for
every item. -/
def buildContextLines : List PassageIn → Nat → List Str
  | [], _ => []
  | p :: ps, idx =>
    if (entryOf p).1 = [] then buildContextLines ps (idx + 1)
    else renderLine idx p :: buildContextLines ps (idx + 1)

def noSourcesSentinel : Str := "情報ソースが見つかりませんでした。".data

/-- Model of `build_context` (src/rag_chain.py lines 49-91). -/
def build_context (passages : List PassageIn) : Str :=
  match passages with
  | [] => noSourcesSentinel
  | _ :: _ =>
    let lines := buildContextLines passages 1
    if lines = [] then noSourcesSentinel else joinNL lines

/-- The kept items of the input, each paired with its 1-based input position. -/
def keptWithPos : List PassageIn → Nat → List (Nat × PassageIn)
  | [], _ => []
  | p :: ps, idx =>
    if (entryOf p).1 = [] then keptWithPos ps (idx + 1)
    else (idx, p) :: keptWithPos ps (idx + 1)

/-- The number of items whose extracted text is non-empty after trimming. -/
def countKept (ps : List PassageIn) : Nat :=
  (ps.filter (fun p => (entryOf p).1 ≠ [])).length

/-! ## Generator: `_normalize_point` (src/rag_chain.py lines 139-146)

Each regex substitution is modelled by a direct scanner with the same
semantics (ordered alternation, minimal `.*?` that does not cross a newline,
`\s` as the whitespace class `pyWSChar`). -/

/-- `re.sub(r"^[0-9]+[\.)、\-]\s*", "", text)`: drop a leading run of ASCII
digits followed by one of `.`, `)`, `、`, `-` and trailing whitespace. -/
def dropEnumMarker (s : Str) : Str :=
  let ds := s.takeWhile Char.isDigit
  if ds = [] then s
  else
    match s.dropWhile Char.isDigit with
    | [] => s
    | c :: r => if c = '.' || c = ')' || c = '、' || c = '-' then r.dropWhile pyWSChar else s

/-- Scan for the next `）` not preceded by a newline; returns the remainder
after it (the minimal-match search of `（.*?）`, where `.` excludes `"\n"`). -/
def findClose : Str → Option Str
  | [] => none
  | c :: cs => if c = '）' then some cs else if c = '\n' then none else findClose cs

/-- Worker for `removeParens`.  The fuel argument only makes the recursion
structural: every recursive call strictly shortens the string (`findClose`
returns a strict suffix), so with fuel `s.length + 1` the fuel can never be
exhausted before the string is. -/
def removeParensGo : Nat → Str → Str
  | 0, s => s
  | _ + 1, [] => []
  | fuel + 1, c :: cs =>
    if c = '（' then
      match findClose cs with
      | some rest => removeParensGo fuel rest
      | none => c :: removeParensGo fuel cs
    else c :: removeParensGo fuel cs

/-- `re.sub(r"（.*?）", "", s)`: remove every minimal full-width-paren span
(the span may not contain a newline, since `.` does not match `"\n"`). -/
def removeParens (s : Str) : Str := removeParensGo (s.length + 1) s

/-- First alternative (in pattern order) that is a prefix of `s`, with the
remainder after dropping it — ordered regex alternation. -/
def dropFirstMatching (ws : List Str) (s : Str) : Option Str :=
  match ws with
  | [] => none
  | w :: rest => if w.isPrefixOf s then some (s.drop w.length) else dropFirstMatching rest s

/-- The alternatives of `TIME_PREFIX_PATTERN`, in source order — note `午前`
precedes `午前中`, so `午前中` is unreachable, exactly as in the regex. -/
def timeWords : List Str :=
  ["朝".data, "午前".data, "午前中".data, "昼".data, "午後".data, "夕方".data, "夜".data, "終日".data]

def timeParticles : List Str :=
  ["から".data, "には".data, "にかけて".data, "まで".data, "は".data, "に".data]

/-- `TIME_PREFIX_PATTERN.sub("", s, count=1)` (the pattern is anchored). -/
def dropTimeMarker (s : Str) : Str :=
  match dropFirstMatching timeWords s with
  | none => s
  | some r =>
    match dropFirstMatching timeParticles r with
    | none => r
    | some r2 => r2

def leadParticles : List Str :=
  ["には".data, "に".data, "は".data, "で".data, "を".data, "と".data, "が".data, "へ".data, "も".data]

/-- `re.sub(r"^(?:には|に|は|で|を|と|が|へ|も)\s*", "", s)`. -/
def dropLeadParticle (s : Str) : Str :=
  match dropFirstMatching leadParticles s with
  | none => s
  | some r => r.dropWhile pyWSChar

/-- Model of `_normalize_point` (src/rag_chain.py lines 139-146). -/
def _normalize_point (text : Str) : Str :=
  let cleaned := dropEnumMarker text
  let cleaned := removeParens cleaned
  let cleaned := pyStrip (cleaned.map (fun c => if c = '　' then ' ' else c))
  let cleaned := dropTimeMarker cleaned
  let cleaned := dropLeadParticle cleaned
  let cleaned := cleaned.dropWhile (fun c => c = '、' || c = '。' || c = ',' || c = '.' || pyWSChar c)
  stripSet "。．.、,".data cleaned

/-! ## Generator: `_fallback_generate` (src/rag_chain.py lines 149-201) -/

def filler_sentence : Str :=
  "全体として落ち着いた雰囲気で、記録の整理と次の準備に時間を充てました。".data

def updateLast (f : Str → Str) : List Str → List Str
  | [] => []
  | [x] => [f x]
  | x :: xs => x :: updateLast f xs

/-- One iteration of the padding loop: `paragraphs[-1] = paragraphs[-1].rstrip("。") + "。" + filler_sentence`. -/
def padStep (ps : List Str) : List Str :=
  updateLast (fun last => rstripSet "。".data last ++ "。".data ++ filler_sentence) ps

/-- The `while` padding loop, with fuel.  Inside `_fallback_generate` the last
paragraph always ends in exactly one `。`, so every iteration grows the body
by `filler_sentence.length = 35` characters and the guard
`body + 35 ≤ 280` bounds the iteration count by 8; fuel 300 is never
exhausted on any input reachable from `_fallback_generate` (proved below as
the loop-exit lemma used by the fallback-shape theorem). -/
def padLoop : Nat → List Str → List Str
  | 0, ps => ps
  | fuel + 1, ps =>
    let body_text := ps.flatten
    if body_text.length < 210 ∧ body_text.length + filler_sentence.length ≤ 280 then
      padLoop fuel (padStep ps)
    else ps

/-- Model of the local `_ensure_sentence` helper. -/
def _ensure_sentence (pre fragment fallback_phrase : Str) : Str :=
  let normalized := stripSet "。．. ".data (pyStrip fragment)
  let normalized := if normalized = [] then fallback_phrase else normalized
  pre ++ normalized ++ "。".data

/-- The `key_points` accumulation loop: normalize each context line, keep
non-empty results, stop once 3 are collected. -/
def keyPointsLoop : List Str → List Str → List Str
  | [], acc => acc.reverse
  | l :: ls, acc =>
    let n := _normalize_point l
    let acc2 := if n ≠ [] then n :: acc else acc
    if 3 ≤ acc2.length then acc2.reverse else keyPointsLoop ls acc2

/-- `context_lines` plus the key-point loop of `_fallback_generate`. -/
def contextKeyPoints (context : Str) : List Str :=
  let context_lines :=
    ((pySplitlines context).filter (fun l => pyStrip l ≠ [])).map (fun l => stripSet "・ ".data l)
  keyPointsLoop context_lines []

/-- `hint_sentence = _safe_str(hint) or "特記事項は記録されていません。"`. -/
def hintSentence (hint : Option Str) : Str :=
  pyOr (safe_str hint) "特記事項は記録されていません。".data

/-- The key-point list after the empty-case default is substituted. -/
def fallbackKeyPoints (context : Str) : List Str :=
  let key_points := contextKeyPoints context
  if key_points = [] then ["文脈情報が不足していますが、穏やかな一日だったと記録します".data]
  else key_points

/-- The `lead` paragraph of `_fallback_generate` (hint sentence, period-terminated). -/
def leadParagraph (hint : Option Str) : Str :=
  let lead := pyStrip ("今日の出来事は提供された資料をもとに整理しました。".data ++ hintSentence hint)
  if lead.getLast? = some '。' then lead else lead ++ "。".data

/-- The `body` paragraph (morning + afternoon sentences). -/
def bodyParagraph (context : Str) : Str :=
  _ensure_sentence "午前中は".data
      (((fallbackKeyPoints context)[0]?).getD "静かに過ごしました".data) "静かに過ごしました".data ++
    _ensure_sentence "午後は".data
      (((fallbackKeyPoints context)[1]?).getD "落ち着いた時間が流れました".data)
      "落ち着いた時間が流れました".data

/-- The `summary` paragraph (before padding). -/
def summaryParagraph (context : Str) : Str :=
  _ensure_sentence "一日の締めくくりとして".data
    (((fallbackKeyPoints context)[2]?).getD "一日の終わりに簡単な振り返りを行い、記録を整えました".data)
    "記録を整えました".data

/-- The three body paragraphs assembled by `_fallback_generate`, including the
padding loop (everything except the header line). -/
def fallbackParagraphs (context : Str) (hint : Option Str) : List Str :=
  padLoop 300 [leadParagraph hint, bodyParagraph context, summaryParagraph context]

/-- Model of `_fallback_generate` (src/rag_chain.py lines 149-201). -/
def _fallback_generate (date context : Str) (hint : Option Str) : Str :=
  joinNL ((date ++ " の記録".data) :: fallbackParagraphs context hint)

/-! ## SelfCheckValidator: `self_check` (src/rag_chain.py lines 237-329) -/

structure CheckResult where
  name : Str
  passed : Bool
  detail : Str
deriving DecidableEq

structure SelfCheckReport where
  passed : Bool
  checks : List CheckResult
  retry_prompt : Option Str
deriving DecidableEq

/-- The `BANNED_WORDS` denylist.  The Python source stores it as a set whose
iteration order is unspecified; only membership affects any check verdict, so
the model fixes the source-literal order. -/
def BANNED_WORDS : List Str := ["超".data, "マジ".data, "ヤバい".data, "ヤベー".data, "まじで".data]

/-- `s.replace("-", "")`. -/
def dehyphen (s : Str) : Str := s.filter (fun c => c ≠ '-')

/-- Model of `_build_retry_prompt` (src/rag_chain.py lines 244-247). -/
def _build_retry_prompt (issues : List Str) (facts_date : Option Str) : Str :=
  "次の点を修正して再生成: ".data ++ List.intercalate "、".data issues ++ "。対象日: ".data ++
    pyOr (facts_date.getD []) "日付未指定".data

/-- Model of `self_check` (src/rag_chain.py lines 250-329).  `facts` carries
only the `date` key in this system, modelled as `facts_date` (with `none` for
a missing key or a `None` value). -/
def self_check (text : Str) (facts_date : Option Str) : SelfCheckReport :=
  let expected_date := safe_str facts_date
  let dateChecks : List CheckResult × List Str :=
    if expected_date ≠ [] then
      let date_matched :=
        containsSub text expected_date || containsSub (dehyphen text) (dehyphen expected_date)
      ([⟨"date_presence".data, date_matched,
          if date_matched then "本文に日付が含まれている".data else "本文に指定日付が含まれていない".data⟩],
        if date_matched then [] else ["本文に日付を含める".data])
    else ([⟨"date_presence".data, true, "期待する日付が指定されていないためスキップ".data⟩], [])
  let banned_hits := BANNED_WORDS.filter (fun w => !w.isEmpty && containsSub text w)
  let banned_passed := banned_hits.isEmpty
  let bannedCheck : CheckResult :=
    ⟨"banned_words".data, banned_passed,
      if banned_passed then "禁則語なし".data
      else "禁則語 ".data ++ List.intercalate ", ".data banned_hits ++ " を削除".data⟩
  let bannedIssues : List Str := if banned_passed then [] else ["禁則語を除去する".data]
  let lines := (pySplitlines text).map pyRStrip
  let lineChecks : List CheckResult × List Str :=
    match lines with
    | [] => ([], [])
    | line0 :: body_lines =>
      let header := pyStrip line0
      let headerChecks : List CheckResult × List Str :=
        if expected_date ≠ [] then
          let expected_header := expected_date ++ " の記録".data
          let header_ok := header = expected_header
          ([⟨"header_format".data, header_ok,
              if header_ok then "見出し行が規定形式".data
              else "見出しを『".data ++ expected_header ++ "』に合わせる".data⟩],
            if header_ok then [] else ["見出し形式を修正する".data])
        else ([], [])
      let blank_line_found := body_lines.any (fun l => pyStrip l = [])
      let non_empty_count := (body_lines.filter (fun l => pyStrip l ≠ [])).length
      let structure_passed := !blank_line_found && non_empty_count == 3
      let structureCheck : CheckResult :=
        ⟨"structure".data, structure_passed,
          if structure_passed then "本文3段落・空行なし".data else "本文の段落数・空行を見直す".data⟩
      let structureIssues : List Str := if structure_passed then [] else ["本文構成を整える".data]
      let bodyChecks : List CheckResult × List Str :=
        match body_lines with
        | [] => ([], [])
        | _ :: _ =>
          let body_text := body_lines.flatten
          let body_len := body_text.length
          let len_passed := decide (200 ≤ body_len) && decide (body_len ≤ 280)
          let lenCheck : CheckResult :=
            ⟨"length".data, len_passed,
              if len_passed then "本文文字数が規定範囲".data
              else "本文文字数を200〜280字に調整する (現在".data ++ natDigits body_len ++ "字)".data⟩
          let punctuation_ok := !(body_text.any (fun c => c = '!' || c = '?' || c = '！' || c = '？'))
          let punctCheck : CheckResult :=
            ⟨"punctuation".data, punctuation_ok,
              if punctuation_ok then "禁則記号なし".data else "感嘆符・疑問符などを削除".data⟩
          ([lenCheck, punctCheck],
            (if len_passed then [] else ["本文文字数を調整する".data]) ++
              (if punctuation_ok then [] else ["禁則記号を削除する".data]))
      (headerChecks.1 ++ [structureCheck] ++ bodyChecks.1,
        headerChecks.2 ++ structureIssues ++ bodyChecks.2)
  let checks := dateChecks.1 ++ [bannedCheck] ++ lineChecks.1
  let issues := dateChecks.2 ++ bannedIssues ++ lineChecks.2
  let passed := issues.isEmpty
  ⟨passed, checks, if passed then none else some (_build_retry_prompt issues facts_date)⟩

/-! ## Generator: `generate_interpolation` (src/rag_chain.py lines 204-234)

The prompt template and style guide are read only to build the prompt sent to
the LLM backend; the backend (and any failure to import or invoke it) is
modelled by the `llm` parameter — `.error` for an exception or missing
backend, `.ok t` for generated text.  When the self-check fails, the code
assigns the fallback after an `if fallback:` guard; the fallback always
contains the header line, hence is never falsy, so the model assigns it
directly. -/

def generate_interpolation (date context : Str) (hint : Option Str) (llm : Except Unit Str) : Str :=
  let generated_text := match llm with | .error _ => [] | .ok t => t
  let final :=
    if pyStrip generated_text = [] then _fallback_generate date context hint
    else if (self_check generated_text (some date)).passed then generated_text
    else _fallback_generate date context hint
  pyStrip final

/-! ## Retriever: `Retriever.search` (src/retriever.py lines 47-131)

The embedding model, the Pinecone index, and the two `index.query` calls are
external collaborators; the model receives their outcomes as inputs:
`initOk` (both the embedding model and the index connected), and `q1`/`q2`,
the outcomes of the windowed and the broader query (`.error` when the call
raises).  The day-window timestamp filter and the query vector only shape
the *request* sent to the index, never the handling of its response, so they
do not appear in the model.  Match records carry the fields the code reads:
`id`, `metadata.text`, `metadata.date` (a timestamp, numeric or string),
`metadata.location`; the floating-point `score` is copied through untouched
and is omitted. -/

/-- A metadata timestamp value as Pinecone returns it: a number (modelled as
an exact integer epoch; fractional parts never change the resolved day for
in-range data) or a string.  Non-numeric, non-string values (`TypeError`
cases) do not occur in this system's index. -/
inductive TsVal
  | num (v : Int)
  | str (s : Str)
deriving DecidableEq

structure QMatch where
  id : Str
  text : Option Str := none
  ts : Option TsVal := none
  location : Option Str := none
deriving DecidableEq

structure Passage where
  text : Str
  date : Str
  location : Str
deriving DecidableEq

/-- Python truthiness of a timestamp value (`if ts:`). -/
def tsTruthy : TsVal → Bool
  | .num v => v ≠ 0
  | .str s => s ≠ []

/-- Model of CPython `float(s)` on strings: optional surrounding whitespace,
optional sign, digits with an optional fractional part (at least one digit
overall), and an optional exponent.  The value is returned as an exact
scaled decimal `(m, e)` meaning `m * 10 ^ e`.  (`inf`/`nan` literals,
underscore separators and out-of-float-range magnitudes are not modelled;
none occur in this system's data.) -/
def pyFloatParse (s : Str) : Option (Int × Int) :=
  let t := (s.dropWhile pyWSChar).rdropWhile pyWSChar
  let (sign, t) : Int × Str :=
    match t with
    | '+' :: r => (1, r)
    | '-' :: r => (-1, r)
    | r => (1, r)
  let ipart := t.takeWhile Char.isDigit
  let t2 := t.dropWhile Char.isDigit
  let (fpart, t3) : Str × Str :=
    match t2 with
    | '.' :: r => (r.takeWhile Char.isDigit, r.dropWhile Char.isDigit)
    | r => ([], r)
  if ipart = [] ∧ fpart = [] then none
  else
    let digitsVal : Str → Nat := fun ds => ds.foldl (fun acc c => acc * 10 + (c.toNat - '0'.toNat)) 0
    let mantissa : Int := sign * (digitsVal (ipart ++ fpart) : Int)
    let fracLen : Int := fpart.length
    match t3 with
    | [] => some (mantissa, -fracLen)
    | e :: r =>
      if e = 'e' ∨ e = 'E' then
        let (esign, r2) : Int × Str :=
          match r with
          | '+' :: rr => (1, rr)
          | '-' :: rr => (-1, rr)
          | rr => (1, rr)
        let edigits := r2.takeWhile Char.isDigit
        if edigits = [] ∨ r2.dropWhile Char.isDigit ≠ [] then none
        else some (mantissa, esign * (digitsVal edigits : Int) - fracLen)
      else none

/-- `float` applied to a timestamp value: numbers convert exactly, strings go
through `pyFloatParse`; `none` models the `ValueError` branch. -/
def floatOf : TsVal → Option (Int × Int)
  | .num v => some (v, 0)
  | .str s => pyFloatParse s

/-- The epoch day (floor of `value / 86400`) of the scaled decimal `m * 10^e`.
`datetime.fromtimestamp` uses the local timezone; the model fixes UTC. -/
def epochDayOf (m e : Int) : Int :=
  if 0 ≤ e then Int.fdiv (m * 10 ^ e.toNat) 86400 else Int.fdiv m (86400 * 10 ^ (-e).toNat)

/-- Civil date from days since 1970-01-01 (proleptic Gregorian). -/
def civilFromDays (z0 : Int) : Int × Nat × Nat :=
  let z := z0 + 719468
  let era := Int.fdiv z 146097
  let doe := (z - era * 146097).toNat
  let yoe := (doe - doe / 1460 + doe / 36524 - doe / 146096) / 365
  let doy := doe - (365 * yoe + yoe / 4 - yoe / 100)
  let mp := (5 * doy + 2) / 153
  let d := doy - (153 * mp + 2) / 5 + 1
  let m := if mp < 10 then mp + 3 else mp - 9
  let y := (yoe : Int) + era * 400 + (if m ≤ 2 then 1 else 0)
  (y, m, d)

/-- `datetime.fromtimestamp(v).strftime('%Y-%m-%d')` for an in-range epoch
value `m * 10^e` (timezone fixed to UTC; years rendered only for the
non-negative range that can arise here). -/
def epochToISO (m e : Int) : Str :=
  let c := civilFromDays (epochDayOf m e)
  pad4 c.1.toNat ++ "-".data ++ fmt02 c.2.1 ++ "-".data ++ fmt02 c.2.2

/-- The per-match date-string resolution of `Retriever.search` step 3
(src/retriever.py lines 109-120): falsy/missing timestamp → `""`; numeric
conversion succeeds → ISO date; conversion raises → the match id. -/
def resolveDate (m : QMatch) : Str :=
  match m.ts with
  | none => []
  | some t =>
    if tsTruthy t then
      match floatOf t with
      | some (mant, ex) => epochToISO mant ex
      | none => m.id
    else []

/-- The returned-passage formatting loop of `Retriever.search`
(src/retriever.py lines 107-131). -/
def formatMatches (ms : List QMatch) : List Passage :=
  ms.map (fun m => ⟨m.text.getD [], resolveDate m, m.location.getD []⟩)

/-- The backfill loop (src/retriever.py lines 96-101): append broader-query
matches whose id is not already seen, stopping once the combined list
reaches `k`. -/
def backfill (k : Nat) (acc : List QMatch) (found : List Str) : List QMatch → List QMatch
  | [] => acc
  | b :: bs =>
    if b.id ∈ found then backfill k acc found bs
    else
      let acc2 := acc ++ [b]
      if k ≤ acc2.length then acc2 else backfill k acc2 (b.id :: found) bs

/-- The combined match list: backfill only when the filtered query returned
fewer than `k` matches. -/
def searchMatches (k : Nat) (ms bs : List QMatch) : List QMatch :=
  if ms.length < k then backfill k ms (ms.map (fun m => m.id)) bs else ms

/-- Gregorian calendar helpers for `datetime.date.fromisoformat`. -/
def isLeap (y : Nat) : Bool := (y % 4 = 0 && y % 100 ≠ 0) || y % 400 = 0

def daysInMonth (y m : Nat) : Nat :=
  if m = 2 then (if isLeap y then 29 else 28)
  else if m = 4 ∨ m = 6 ∨ m = 9 ∨ m = 11 then 30
  else 31

/-- Model of `datetime.date.fromisoformat` on the canonical `YYYY-MM-DD`
form (the only form produced or accepted anywhere in this system); any other
string fails to parse, modelling the `ValueError`. -/
def date_fromisoformat (s : Str) : Option (Nat × Nat × Nat) :=
  match s with
  | [y1, y2, y3, y4, '-', m1, m2, '-', d1, d2] =>
    if (y1.isDigit && y2.isDigit && y3.isDigit && y4.isDigit &&
        m1.isDigit && m2.isDigit && d1.isDigit && d2.isDigit) then
      let toN : Char → Nat := fun c => c.toNat - '0'.toNat
      let y := ((toN y1 * 10 + toN y2) * 10 + toN y3) * 10 + toN y4
      let mo := toN m1 * 10 + toN m2
      let d := toN d1 * 10 + toN d2
      if 1 ≤ mo ∧ mo ≤ 12 ∧ 1 ≤ d ∧ d ≤ daysInMonth y mo then some (y, mo, d) else none
    else none
  | _ => none

/-- A call to `Retriever.search` either raises (an uncaught exception
propagates to the caller) or returns a passage list. -/
inductive SearchOutcome
  | raises (err : Str)
  | ok (ps : List Passage)
deriving DecidableEq

/-- Model of `Retriever.search` (src/retriever.py lines 47-131): the
initialization guard raises `ConnectionError`; `date.fromisoformat` runs
*before* the `try` block, so an unparseable date raises `ValueError` to the
caller; inside the `try`, a raising query call is caught and `[]` is
returned; otherwise the filtered matches, backfilled if fewer than `k`, are
formatted into passages. -/
def Retriever.search (initOk : Bool) (q1 q2 : Except Unit (List QMatch))
    (date : Str) (k : Nat) : SearchOutcome :=
  if initOk = false then .raises "ConnectionError: Retriever is not properly initialized.".data
  else
    match date_fromisoformat date with
    | none => .raises "ValueError: Invalid isoformat string".data
    | some _ =>
      match q1 with
      | .error _ => .ok []
      | .ok ms =>
        if ms.length < k then
          match q2 with
          | .error _ => .ok []
          | .ok bs => .ok (formatMatches (backfill k ms (ms.map (fun m => m.id)) bs))
        else .ok (formatMatches ms)

/-! ## Orchestrator: `Orchestrator.interpolate` (src/orchestrator.py lines 5-42)

The request is `(reqDate, reqHint)`; the retrieval call's outcome is the
`SearchOutcome` computed by `Retriever.search` (any exception it raises is
caught here).  The code then assembles a hard-coded stub text from the raw
passage texts — it never calls `build_context`, `generate_interpolation`, or
`self_check` — and builds the citations directly from each passage. -/

structure Citation where
  snippet : Str
  date : Str
deriving DecidableEq

structure InterpolationResponse where
  date : Str
  text : Str
  citations : List Citation
deriving DecidableEq

/-- Python `f"{hint}"` rendering of the optional hint (`None` prints as
`"None"`). -/
def hintRepr : Option Str → Str
  | none => "None".data
  | some s => s

/-- Model of `Orchestrator.interpolate` (src/orchestrator.py lines 5-42). -/
def Orchestrator.interpolate (reqDate : Str) (reqHint : Option Str)
    (searchRes : SearchOutcome) : InterpolationResponse :=
  match searchRes with
  | .raises e => ⟨reqDate, "Error during retrieval: ".data ++ e, []⟩
  | .ok passages =>
    let context_for_stub := joinNL (passages.map (fun p => p.text))
    let text :=
      "（AIによる生成結果）\n日付: ".data ++ reqDate ++ "\nヒント: ".data ++ hintRepr reqHint ++
        "\n---\n[参照した過去の記憶]\n".data ++ context_for_stub
    ⟨reqDate, text,
      passages.map (fun p => ⟨p.text.take 100 ++ "...".data, p.date⟩)⟩

/-- The extraction of the passed-flag of the first check with a given name
from a `SelfCheckReport` (`none` when no check of that name is present). -/
def checkNamed (r : SelfCheckReport) (nm : Str) : Option Bool :=
  (r.checks.find? (fun c => decide (c.name = nm))).map (fun c => c.passed)

/-! ## The padding loop: invariants and exit condition -/

/-- A string that ends in exactly one `。`. -/
def EndsOne (c : Str) : Prop := ∃ z, c = z ++ ['。'] ∧ z.getLast? ≠ some '。'

def fillerBody : Str := "全体として落ち着いた雰囲気で、記録の整理と次の準備に時間を充てました".data

theorem buildContextLines_eq_map_keptWithPos (ps : List PassageIn) (idx : Nat) :
    buildContextLines ps idx = (keptWithPos ps idx).map (fun np => renderLine np.1 np.2) := by
  induction ps generalizing idx with
  | nil => rfl
  | cons p ps ih =>
    by_cases h : (entryOf p).1 = []
    · simp [buildContextLines, keptWithPos, h, ih]
    · simp [buildContextLines, keptWithPos, h, ih]

theorem keptWithPos_length (ps : List PassageIn) (idx : Nat) :
    (keptWithPos ps idx).length = countKept ps := by
  induction ps generalizing idx with
  | nil => rfl
  | cons p ps ih =>
    by_cases h : (entryOf p).1 = []
    · simp [keptWithPos, countKept, List.filter, h] at ih ⊢
      exact ih (idx + 1)
    · simp [keptWithPos, countKept, List.filter, h] at ih ⊢
      exact ih (idx + 1)

/-- C2 (counterexample): on the input `["", "a"]` there is exactly one kept
item, yet the single output line is numbered `02.`, not `01.`: skipped items
still advance the numbering, so it is not dense. -/
theorem build_context_numbering_not_dense :
    countKept [.str "".data, .str "a".data] = 1 ∧
      (pySplitlines (build_context [.str "".data, .str "a".data])).map (fun l => l.take 3) =
        ["02.".data] ∧
      ["02.".data] ≠ ["01.".data] := by
  refine ⟨by decide, by decide, by decide⟩

/-- C2 (amended): the output lines of `build_context` are exactly the items
with non-empty trimmed text, in order, each numbered with its 1-based
position in the *input* list (zero-padded to two digits); hence the line
count equals the number of kept items, but a skipped item still advances
the numbering of subsequent items. -/
theorem build_context_lines_characterization (ps : List PassageIn) :
    buildContextLines ps 1 = (keptWithPos ps 1).map (fun np => renderLine np.1 np.2) ∧
      (buildContextLines ps 1).length = countKept ps := by
  refine ⟨buildContextLines_eq_map_keptWithPos ps 1, ?_⟩
  rw [buildContextLines_eq_map_keptWithPos ps 1, List.length_map]
  exact keptWithPos_length ps 1

example : ((fallbackParagraphs [] none).flatten).length = 234 := by decide

example : (pySplitlines (_fallback_generate "2025-09-24".data [] none)).length = 4 := by decide

example : epochToISO 1758672000 0 = "2025-09-24".data := by decide

example : pyFloatParse "1758672000".data = some (1758672000, 0) := by decide

example : pyFloatParse "abc".data = none := by decide

example : date_fromisoformat "2025-09-24".data = some (2025, 9, 24) := by decide

example : date_fromisoformat "not-a-date".data = none := by decide

/-! ## Claim theorems: Retriever and Orchestrator -/

/-- C3 (counterexample): `Retriever.search` parses the date *outside* its
`try` block, so with a healthy index and embedding model a date that is not
a calendar date makes `search` raise `ValueError` to its caller — it does
crash, contradicting the claim. -/
theorem search_crashes_on_unparseable_date :
    Retriever.search true (.ok []) (.ok []) "not-a-date".data 6 =
      .raises "ValueError: Invalid isoformat string".data := by decide

/-- C3 (amended): for every date string that does not parse as a calendar
date, `Retriever.search` (with its collaborators initialized) raises
`ValueError` regardless of the query outcomes; unparseable dates are *not*
handled inside `search` — the Orchestrator catches the exception at its own
boundary instead. -/
theorem search_raises_valueerror_on_unparseable_date
    (q1 q2 : Except Unit (List QMatch)) (date : Str) (k : Nat)
    (hp : date_fromisoformat date = none) :
    Retriever.search true q1 q2 date k = .raises "ValueError: Invalid isoformat string".data := by
  simp [Retriever.search, hp]

theorem search_raises_valueerror_on_unparseable_date_witness :
    date_fromisoformat "2025-13-05".data = none ∧
      Retriever.search true (.ok []) (.ok []) "2025-13-05".data 6 =
        .raises "ValueError: Invalid isoformat string".data :=
  ⟨by decide, search_raises_valueerror_on_unparseable_date _ _ _ 6 (by decide)⟩

/-- C7: if an index query call raises during execution — whether the windowed
query or the backfill query issued when the windowed one returned fewer than
`k` matches — the exception is caught inside `Retriever.search` and an empty
passage list is returned instead of propagating. -/
theorem search_soft_fails_on_query_error (date : Str) (d : Nat × Nat × Nat) (k : Nat)
    (hp : date_fromisoformat date = some d) :
    (∀ q2, Retriever.search true (.error ()) q2 date k = .ok []) ∧
      (∀ ms, ms.length < k → Retriever.search true (.ok ms) (.error ()) date k = .ok []) := by
  constructor
  · intro q2
    simp [Retriever.search, hp]
  · intro ms hlt
    simp [Retriever.search, hp, hlt]

theorem search_soft_fails_on_query_error_witness :
    date_fromisoformat "2025-09-24".data = some (2025, 9, 24) ∧
      Retriever.search true (.error ()) (.ok []) "2025-09-24".data 6 = .ok [] ∧
      Retriever.search true (.ok []) (.error ()) "2025-09-24".data 6 = .ok [] :=
  ⟨by decide,
    (search_soft_fails_on_query_error "2025-09-24".data (2025, 9, 24) 6 (by decide)).1 (.ok []),
    (search_soft_fails_on_query_error "2025-09-24".data (2025, 9, 24) 6 (by decide)).2 []
      (by decide)⟩

theorem backfill_id_nodup (k : Nat) :
    ∀ (bs acc : List QMatch) (found : List Str),
      (acc.map (fun m => m.id)).Nodup → (∀ a ∈ acc, a.id ∈ found) →
        ((backfill k acc found bs).map (fun m => m.id)).Nodup := by
  intro bs
  induction bs with
  | nil => intro acc found hn _; simpa [backfill] using hn
  | cons b bs ih =>
    intro acc found hn hsub
    by_cases hin : b.id ∈ found
    · simpa [backfill, hin] using ih acc found hn hsub
    · have hnotacc : b.id ∉ acc.map (fun m => m.id) := by
        intro hmem
        obtain ⟨a, ha, hid⟩ := List.mem_map.mp hmem
        exact hin (hid ▸ hsub a ha)
      have hn2 : ((acc ++ [b]).map (fun m => m.id)).Nodup := by
        rw [List.map_append]
        exact List.Nodup.append hn (List.nodup_singleton _)
          (by
            intro x hx hxb
            simp only [List.map_cons, List.map_nil, List.mem_singleton] at hxb
            exact hnotacc (hxb ▸ hx))
      by_cases hk : k ≤ acc.length + 1
      · simpa [backfill, hin, hk] using hn2
      · have hsub2 : ∀ a ∈ acc ++ [b], a.id ∈ b.id :: found := by
          intro a ha
          rcases List.mem_append.mp ha with ha | ha
          · exact List.mem_cons_of_mem _ (hsub a ha)
          · simp only [List.mem_singleton] at ha
            subst ha
            exact List.mem_cons_self _ _
        simpa [backfill, hin, hk] using ih (acc ++ [b]) (b.id :: found) hn2 hsub2

/-- C6: when the windowed (filtered) query returns matches with pairwise
distinct ids — as a top-k vector index response always does — the combined
filtered-plus-backfilled match list never contains two entries with the same
index id: the backfill loop appends only broader-query matches whose id is
not already present, stopping at `k`; moreover this combined list is exactly
what a successful `Retriever.search` formats into its returned passages. -/
theorem search_combined_ids_nodup (k : Nat) (ms bs : List QMatch)
    (h : (ms.map (fun m => m.id)).Nodup) :
    ((searchMatches k ms bs).map (fun m => m.id)).Nodup ∧
      (∀ date d, date_fromisoformat date = some d →
        Retriever.search true (.ok ms) (.ok bs) date k =
          .ok (formatMatches (searchMatches k ms bs))) := by
  constructor
  · unfold searchMatches
    by_cases hlt : ms.length < k
    · simp only [hlt, if_true]
      exact backfill_id_nodup k bs ms (ms.map (fun m => m.id)) h
        (fun a ha => List.mem_map.mpr ⟨a, ha, rfl⟩)
    · simpa [hlt] using h
  · intro date d hp
    unfold Retriever.search searchMatches
    by_cases hlt : ms.length < k
    · simp [hp, hlt]
    · simp [hp, hlt]

theorem search_combined_ids_nodup_witness :
    (([⟨"2025-09-22".data, none, none, none⟩] : List QMatch).map (fun m => m.id)).Nodup ∧
      ((searchMatches 2 [⟨"2025-09-22".data, none, none, none⟩]
            [⟨"2025-09-22".data, none, none, none⟩, ⟨"2025-09-23".data, none, none, none⟩]).map
          (fun m => m.id)).Nodup ∧
      Retriever.search true
          (.ok [⟨"2025-09-22".data, none, none, none⟩])
          (.ok [⟨"2025-09-22".data, none, none, none⟩, ⟨"2025-09-23".data, none, none, none⟩])
          "2025-09-24".data 2 =
        .ok (formatMatches (searchMatches 2 [⟨"2025-09-22".data, none, none, none⟩]
          [⟨"2025-09-22".data, none, none, none⟩, ⟨"2025-09-23".data, none, none, none⟩])) :=
  ⟨by decide,
    (search_combined_ids_nodup 2 _ _ (by decide)).1,
    (search_combined_ids_nodup 2 _ _ (by decide)).2 "2025-09-24".data (2025, 9, 24) (by decide)⟩

/-- C9 (counterexample): a match whose metadata has *no* stored timestamp is
resolved to the empty date string, not to the match's own identifier as the
claim states. -/
theorem resolveDate_missing_ts_gives_empty_not_id :
    (formatMatches [⟨"2025-09-24".data, some "text".data, none, none⟩]).map
        (fun p => p.date) = [[]] ∧
      ([] : Str) ≠ "2025-09-24".data := by decide

/-- C9 (amended): for each final match, a present and truthy stored timestamp
is resolved to an ISO date string when it converts as a number, and the
match's own identifier is used when the conversion raises; but a *missing*
(or falsy) timestamp yields the empty string, not the identifier. -/
theorem resolveDate_characterization (m : QMatch) :
    (m.ts = none → resolveDate m = []) ∧
      (∀ t, m.ts = some t → tsTruthy t = false → resolveDate m = []) ∧
      (∀ t mant ex, m.ts = some t → tsTruthy t = true → floatOf t = some (mant, ex) →
        resolveDate m = epochToISO mant ex) ∧
      (∀ t, m.ts = some t → tsTruthy t = true → floatOf t = none → resolveDate m = m.id) := by
  refine ⟨?_, ?_, ?_, ?_⟩
  · intro h
    simp [resolveDate, h]
  · intro t ht htr
    simp [resolveDate, ht, htr]
  · intro t mant ex ht htr hf
    simp [resolveDate, ht, htr, hf]
  · intro t ht htr hf
    simp [resolveDate, ht, htr, hf]

theorem resolveDate_characterization_witness :
    resolveDate ⟨"x".data, none, some (.str "1758672000".data), none⟩ = "2025-09-24".data ∧
      resolveDate ⟨"2025-01-02".data, none, some (.str "20-25".data), none⟩ = "2025-01-02".data ∧
      resolveDate ⟨"y".data, none, none, none⟩ = [] := by
  refine ⟨?_, ?_, ?_⟩
  · have h := (resolveDate_characterization ⟨"x".data, none, some (.str "1758672000".data), none⟩).2.2.1
      (.str "1758672000".data) 1758672000 0 rfl (by decide) (by decide)
    rw [h]
    decide
  · exact (resolveDate_characterization _).2.2.2 (.str "20-25".data) rfl (by decide) (by decide)
  · exact (resolveDate_characterization _).1 rfl

/-- C8 (counterexample): a retrieved passage whose metadata date is empty
(the value `Retriever.search` produces when the stored timestamp is absent)
yields a citation whose date is that same empty string — the request date
`"2025-09-24"` is *not* substituted. -/
theorem citation_date_not_defaulted :
    (Orchestrator.interpolate "2025-09-24".data none (.ok [⟨"t".data, [], []⟩])).citations =
        [⟨"t...".data, []⟩] ∧
      ([] : Str) ≠ "2025-09-24".data := by decide

/-- C8 (amended): for each retrieved passage, in retrieval order, the
Orchestrator builds a Citation whose snippet is the first 100 characters of
the passage text plus the ellipsis marker and whose date is the passage's
metadata date taken verbatim — no defaulting to the request date occurs. -/
theorem interpolate_citations_characterization (reqDate : Str) (reqHint : Option Str)
    (ps : List Passage) :
    (Orchestrator.interpolate reqDate reqHint (.ok ps)).citations =
      ps.map (fun p => ⟨p.text.take 100 ++ "...".data, p.date⟩) := rfl

/-- C1: at a request whose retrieval succeeds with one passage,
`Orchestrator.interpolate` returns the hard-coded stub text assembled from
the raw passage texts, which differs from the Generator's output
(`generate_interpolation` over the built context, here on its deterministic
path): the orchestrator never invokes the ContextBuilder, the Generator, or
the SelfCheckValidator. -/
theorem interpolate_returns_stub_not_generator_output :
    (Orchestrator.interpolate "2025-09-24".data (some "hint".data)
          (.ok [⟨"past entry".data, "2025-09-23".data, []⟩])).text =
        "（AIによる生成結果）\n日付: 2025-09-24\nヒント: hint\n---\n[参照した過去の記憶]\npast entry".data ∧
      (Orchestrator.interpolate "2025-09-24".data (some "hint".data)
          (.ok [⟨"past entry".data, "2025-09-23".data, []⟩])).text ≠
        generate_interpolation "2025-09-24".data
          (build_context [.str "past entry".data]) (some "hint".data) (.error ()) := by
  constructor
  · decide
  · decide

/-! ## Shared string lemmas -/

theorem stripBoth_infix_self (p : Char → Bool) (s : Str) :
    (s.dropWhile p).rdropWhile p <:+: s :=
  ((List.rdropWhile_prefix p (s.dropWhile p)).isInfix).trans
    ((List.dropWhile_suffix p (l := s)).isInfix)

theorem pyStrip_infix_self (s : Str) : pyStrip s <:+: s :=
  ((List.dropWhile_suffix pyWSChar (l := s.rdropWhile pyWSChar)).isInfix).trans
    ((List.rdropWhile_prefix pyWSChar s).isInfix)

theorem stripSet_infix_self (cs s : Str) : stripSet cs s <:+: s := stripBoth_infix_self _ s

theorem rstripSet_infix_self_self (cs s : Str) : rstripSet cs s <:+: s :=
  (List.rdropWhile_prefix _ s).isInfix

theorem safe_str_some_infix_self (s : Str) : safe_str (some s) <:+: s := pyStrip_infix_self s

/-- C10: on a text consisting of exactly one line, checked against a
non-empty expected date, `self_check` reports a *failing* structure check
(zero body lines rather than the required 3) while the length and
punctuation checks are absent from the report, and the overall verdict is
`passed = false` regardless of the other checks' outcomes. -/
theorem self_check_single_line_report (text fd : Str)
    (hone : (pySplitlines text).length = 1) (hd : safe_str (some fd) ≠ []) :
    checkNamed (self_check text (some fd)) "structure".data = some false ∧
      checkNamed (self_check text (some fd)) "length".data = none ∧
      checkNamed (self_check text (some fd)) "punctuation".data = none ∧
      (self_check text (some fd)).passed = false := by
  obtain ⟨l0, hl⟩ := List.length_eq_one.mp hone
  have hn1 : (decide ((("date_presence".data : Str)) = "structure".data)) = false := by decide
  have hn2 : (decide ((("banned_words".data : Str)) = "structure".data)) = false := by decide
  have hn3 : (decide ((("header_format".data : Str)) = "structure".data)) = false := by decide
  have hn4 : (decide ((("structure".data : Str)) = "structure".data)) = true := by decide
  have hn5 : (decide ((("date_presence".data : Str)) = "length".data)) = false := by decide
  have hn6 : (decide ((("banned_words".data : Str)) = "length".data)) = false := by decide
  have hn7 : (decide ((("header_format".data : Str)) = "length".data)) = false := by decide
  have hn8 : (decide ((("structure".data : Str)) = "length".data)) = false := by decide
  have hn9 : (decide ((("date_presence".data : Str)) = "punctuation".data)) = false := by decide
  have hn10 : (decide ((("banned_words".data : Str)) = "punctuation".data)) = false := by decide
  have hn11 : (decide ((("header_format".data : Str)) = "punctuation".data)) = false := by decide
  have hn12 : (decide ((("structure".data : Str)) = "punctuation".data)) = false := by decide
  refine ⟨?_, ?_, ?_, ?_⟩
  · simp [self_check, hl, hd, checkNamed, List.find?, hn1, hn2, hn3, hn4]
  · simp [self_check, hl, hd, checkNamed, List.find?, hn5, hn6, hn7, hn8]
  · simp [self_check, hl, hd, checkNamed, List.find?, hn9, hn10, hn11, hn12]
  · simp [self_check, hl, hd, List.isEmpty_iff, List.append_eq_nil]

theorem self_check_single_line_report_witness :
    (pySplitlines "2025-09-24 の記録".data).length = 1 ∧
      safe_str (some "2025-09-24".data) ≠ [] ∧
      (checkNamed (self_check "2025-09-24 の記録".data (some "2025-09-24".data)) "structure".data =
          some false ∧
        checkNamed (self_check "2025-09-24 の記録".data (some "2025-09-24".data)) "length".data =
          none ∧
        checkNamed (self_check "2025-09-24 の記録".data (some "2025-09-24".data))
            "punctuation".data = none ∧
        (self_check "2025-09-24 の記録".data (some "2025-09-24".data)).passed = false) :=
  ⟨by decide, by decide,
    self_check_single_line_report "2025-09-24 の記録".data "2025-09-24".data (by decide) (by decide)⟩

/-! ## Infix toolkit

Occurrence analysis for Python's substring test over concatenations: an
occurrence in `a ++ b` lies in `a`, lies in `b`, or spans the boundary with a
nonempty suffix of `a` and a nonempty prefix of `b`. -/

theorem infix_append_split {w a b : Str} (h : w <:+: a ++ b) :
    w <:+: a ∨ w <:+: b ∨
      ∃ i, 0 < i ∧ i < w.length ∧ w.take i <:+ a ∧ w.drop i <+: b := by
  obtain ⟨s, t, hst⟩ := h
  obtain ⟨n, hn⟩ : ∃ n, a.length = n := ⟨a.length, rfl⟩
  have hta : a = (s ++ (w ++ t)).take n := by
    rw [show s ++ (w ++ t) = a ++ b by rw [← List.append_assoc, hst], ← hn, List.take_left]
  have htb : b = (s ++ (w ++ t)).drop n := by
    rw [show s ++ (w ++ t) = a ++ b by rw [← List.append_assoc, hst], ← hn, List.drop_left]
  rcases le_or_lt (s.length + w.length) n with hle | hgt
  · left
    have hsa : s.length ≤ n := by omega
    have hwa : w.length ≤ n - s.length := by omega
    rw [List.take_append_eq_append_take, List.take_of_length_le hsa,
      List.take_append_eq_append_take, List.take_of_length_le hwa] at hta
    exact ⟨s, (t.take (n - s.length - w.length)), by rw [← List.append_assoc] at hta; exact hta.symm⟩
  · rcases le_or_lt n s.length with has | hsa
    · right; left
      rw [List.drop_append_eq_append_drop, Nat.sub_eq_zero_of_le has, List.drop_zero] at htb
      exact ⟨s.drop n, t, by rw [← List.append_assoc] at htb; exact htb.symm⟩
    · right; right
      refine ⟨n - s.length, by omega, by omega, ?_, ?_⟩
      · rw [List.take_append_eq_append_take, List.take_of_length_le (by omega),
          List.take_append_of_le_length (by omega)] at hta
        exact ⟨s, hta.symm⟩
      · rw [List.drop_append_eq_append_drop, List.drop_of_length_le (by omega),
          List.nil_append, List.drop_append_of_le_length (by omega)] at htb
        exact ⟨t, htb.symm⟩

theorem infix_singleton {w : Str} {c : Char} (h : w <:+: [c]) : w = [] ∨ w = [c] := by
  obtain ⟨s, t, hst⟩ := h
  rcases w with _ | ⟨x, _ | ⟨y, ys⟩⟩
  · exact Or.inl rfl
  · right
    have hx : x ∈ ([c] : Str) := by
      rw [← hst]
      simp
    simp only [List.mem_singleton] at hx
    rw [hx]
  · exfalso
    have := congrArg List.length hst
    simp [List.length_append] at this
    omega

theorem not_infix_singleton {w : Str} {c : Char} (hne : w ≠ []) (hc : c ∉ w) :
    ¬ w <:+: [c] := by
  intro h
  rcases infix_singleton h with h1 | h1
  · exact hne h1
  · exact hc (h1 ▸ List.mem_singleton_self c)

theorem not_infix_append_right_head {w a b : Str}
    (ha : ¬ w <:+: a) (hb : ¬ w <:+: b)
    (hhead : ∀ c, b.head? = some c → c ∉ w) : ¬ w <:+: a ++ b := by
  intro h
  rcases infix_append_split h with h1 | h1 | ⟨i, hi0, hiw, h1, h2⟩
  · exact ha h1
  · exact hb h1
  · have hdne : w.drop i ≠ [] := by
      rw [Ne, List.drop_eq_nil_iff]
      omega
    obtain ⟨c, rest, hcr⟩ : ∃ c rest, w.drop i = c :: rest := by
      cases hdr : w.drop i with
      | nil => exact absurd hdr hdne
      | cons c rest => exact ⟨c, rest, rfl⟩
    obtain ⟨r, hr⟩ := h2
    have hbh : b.head? = some c := by
      rw [← hr, hcr]
      rfl
    exact hhead c hbh (List.drop_subset i w (hcr ▸ List.mem_cons_self c rest))

theorem not_infix_append_left_last {w a b : Str}
    (ha : ¬ w <:+: a) (hb : ¬ w <:+: b)
    (hlast : ∀ c, a.getLast? = some c → c ∉ w) : ¬ w <:+: a ++ b := by
  intro h
  rcases infix_append_split h with h1 | h1 | ⟨i, hi0, hiw, h1, h2⟩
  · exact ha h1
  · exact hb h1
  · have htne : w.take i ≠ [] := by
      rw [Ne, List.take_eq_nil_iff]
      push_neg
      constructor
      · omega
      · intro hw
        subst hw
        exact ha List.nil_infix
    obtain ⟨r, hr⟩ := h1
    have hlt : a.getLast? = (w.take i).getLast? := by
      rw [← hr]
      exact List.getLast?_append_of_ne_nil r htne
    have hc := List.getLast?_eq_getLast (w.take i) htne
    have hcw : (w.take i).getLast htne ∈ w := List.take_subset i w (List.getLast_mem htne)
    exact hlast _ (by rw [hlt, hc]) hcw

/-- No occurrence of a newline-free nonempty word in a `"\n"`-join whose
pieces are all occurrence-free. -/
theorem not_infix_joinNL {w : Str} (hw : w ≠ []) (hnl : '\n' ∉ w) :
    ∀ ls : List Str, (∀ l ∈ ls, ¬ w <:+: l) → ¬ w <:+: joinNL ls := by
  intro ls
  induction ls with
  | nil =>
    intro _ h
    rw [joinNL] at h
    exact hw (List.eq_nil_of_infix_nil h)
  | cons l ls ih =>
    intro hfree
    cases ls with
    | nil => exact hfree l (List.mem_cons_self l [])
    | cons l2 rest =>
      show ¬ w <:+: l ++ '\n' :: joinNL (l2 :: rest)
      refine not_infix_append_right_head (hfree l (List.mem_cons_self l _)) ?_ ?_
      · show ¬ w <:+: ['\n'] ++ joinNL (l2 :: rest)
        refine not_infix_append_left_last (not_infix_singleton hw hnl)
          (ih (fun x hx => hfree x (List.mem_cons_of_mem l hx))) ?_
        intro c hc
        simp only [List.getLast?_singleton, Option.some_inj] at hc
        intro hcw
        apply hnl
        rw [hc]
        exact hcw
      · intro c hc
        simp only [List.head?_cons, Option.some_inj] at hc
        intro hcw
        apply hnl
        rw [hc]
        exact hcw

/-! ## Newline-freeness of the fallback paragraphs -/

theorem dropFirstMatching_subset :
    ∀ (ws : List Str) (s r : Str), dropFirstMatching ws s = some r → r ⊆ s := by
  intro ws
  induction ws with
  | nil => intro s r h; simp [dropFirstMatching] at h
  | cons w rest ih =>
    intro s r h
    simp only [dropFirstMatching] at h
    by_cases hp : w.isPrefixOf s
    · simp only [hp, if_true, Option.some_inj] at h
      exact h ▸ List.drop_subset _ s
    · simp only [hp, if_false, Bool.false_eq_true] at h
      exact ih s r h

theorem findClose_subset : ∀ (s r : Str), findClose s = some r → r ⊆ s := by
  intro s
  induction s with
  | nil => intro r h; simp [findClose] at h
  | cons c cs ih =>
    intro r h
    simp only [findClose] at h
    by_cases hc : c = '）'
    · simp only [hc, if_true] at h
      cases h
      exact List.subset_cons_of_subset c (fun x hx => hx)
    · by_cases hn : c = '\n'
      · simp [hc, hn] at h
      · simp only [hc, hn, if_false] at h
        exact List.subset_cons_of_subset c (ih r h)

theorem removeParensGo_subset : ∀ (fuel : Nat) (s : Str), removeParensGo fuel s ⊆ s := by
  intro fuel
  induction fuel with
  | zero => intro s; cases s <;> exact fun x hx => hx
  | succ fuel ih =>
    intro s
    cases s with
    | nil => exact fun x hx => hx
    | cons c cs =>
      intro x hx
      simp only [removeParensGo] at hx
      by_cases hc : c = '（'
      · rw [if_pos hc] at hx
        cases hfc : findClose cs with
        | some rest =>
          rw [hfc] at hx
          exact List.mem_cons_of_mem c (findClose_subset cs rest hfc (ih rest hx))
        | none =>
          rw [hfc] at hx
          rcases List.mem_cons.mp hx with hx | hx
          · exact hx ▸ List.mem_cons_self c cs
          · exact List.mem_cons_of_mem c (ih cs hx)
      · rw [if_neg hc] at hx
        rcases List.mem_cons.mp hx with hx | hx
        · exact hx ▸ List.mem_cons_self c cs
        · exact List.mem_cons_of_mem c (ih cs hx)

theorem removeParens_subset (s : Str) : removeParens s ⊆ s := removeParensGo_subset _ s

theorem dropEnumMarker_subset (s : Str) : dropEnumMarker s ⊆ s := by
  intro x hx
  simp only [dropEnumMarker] at hx
  split at hx
  · exact hx
  · split at hx
    · exact hx
    · rename_i c r heq
      split at hx
      · have hx2 : x ∈ List.dropWhile Char.isDigit s := by
          rw [heq]
          exact List.mem_cons_of_mem _ ((List.dropWhile_sublist pyWSChar).subset hx)
        exact (List.dropWhile_sublist Char.isDigit).subset hx2
      · exact hx

theorem dropTimeMarker_subset (s : Str) : dropTimeMarker s ⊆ s := by
  unfold dropTimeMarker
  split
  · exact fun x hx => hx
  · rename_i r hr
    split
    · exact dropFirstMatching_subset _ _ _ hr
    · rename_i r2 hr2
      exact fun x hx =>
        dropFirstMatching_subset _ _ _ hr (dropFirstMatching_subset _ _ _ hr2 hx)

theorem dropLeadParticle_subset (s : Str) : dropLeadParticle s ⊆ s := by
  unfold dropLeadParticle
  split
  · exact fun x hx => hx
  · rename_i r hr
    exact fun x hx =>
      dropFirstMatching_subset _ _ _ hr ((List.dropWhile_sublist pyWSChar).subset hx)

theorem pyStrip_subset (s : Str) : pyStrip s ⊆ s := (pyStrip_infix_self s).subset

theorem stripSet_subset (cs s : Str) : stripSet cs s ⊆ s := (stripSet_infix_self cs s).subset

/-- `_normalize_point` never introduces a newline. -/
theorem normalize_point_no_nl {l : Str} (h : '\n' ∉ l) : '\n' ∉ _normalize_point l := by
  intro hm
  simp only [_normalize_point] at hm
  have h1 := stripSet_subset _ _ hm
  have h2 := (List.dropWhile_sublist _).subset h1
  have h3 := dropLeadParticle_subset _ h2
  have h4 := dropTimeMarker_subset _ h3
  have h5 := pyStrip_subset _ h4
  obtain ⟨c, hc, hfc⟩ := List.mem_map.mp h5
  have hcnl : c = '\n' := by
    by_cases hcs : c = '　'
    · simp [hcs] at hfc
    · simpa [hcs] using hfc
  subst hcnl
  exact h (dropEnumMarker_subset l (removeParens_subset _ hc))

theorem mem_splitNL_no_nl : ∀ (s : Str), ∀ l ∈ splitNL s, '\n' ∉ l := by
  intro s
  induction s with
  | nil =>
    intro l hl
    simp only [splitNL, List.mem_singleton] at hl
    subst hl
    exact List.not_mem_nil '\n'
  | cons c cs ih =>
    intro l hl
    simp only [splitNL] at hl
    by_cases hc : c = '\n'
    · simp only [hc, if_true, List.mem_cons] at hl
      rcases hl with hl | hl
      · subst hl; exact List.not_mem_nil '\n'
      · exact ih l hl
    · simp only [hc, if_false] at hl
      cases hsp : splitNL cs with
      | nil =>
        rw [hsp] at hl
        simp only [List.mem_singleton] at hl
        subst hl
        intro hm
        rcases List.mem_cons.mp hm with hm | hm
        · exact hc hm.symm
        · exact (List.not_mem_nil _) hm
      | cons hd tl =>
        rw [hsp] at hl
        rcases List.mem_cons.mp hl with hl | hl
        · subst hl
          intro hm
          rcases List.mem_cons.mp hm with hm | hm
          · exact hc hm.symm
          · exact ih hd (hsp ▸ List.mem_cons_self hd tl) hm
        · exact ih l (hsp ▸ List.mem_cons_of_mem hd hl)

theorem mem_pySplitlines_no_nl (s : Str) : ∀ l ∈ pySplitlines s, '\n' ∉ l := by
  intro l hl
  simp only [pySplitlines] at hl
  split at hl
  · exact mem_splitNL_no_nl s l (List.dropLast_subset _ hl)
  · exact mem_splitNL_no_nl s l hl

theorem mem_keyPointsLoop :
    ∀ (ls acc : List Str) (p : Str), p ∈ keyPointsLoop ls acc →
      p ∈ acc ∨ ∃ l ∈ ls, p = _normalize_point l := by
  intro ls
  induction ls with
  | nil =>
    intro acc p hp
    rw [keyPointsLoop] at hp
    exact Or.inl (List.mem_reverse.mp hp)
  | cons l ls ih =>
    intro acc p hp
    simp only [keyPointsLoop] at hp
    by_cases hn : _normalize_point l ≠ []
    · rw [if_pos hn] at hp
      split at hp
      · rcases List.mem_cons.mp (List.mem_reverse.mp hp) with hp | hp
        · exact Or.inr ⟨l, List.mem_cons_self l ls, hp⟩
        · exact Or.inl hp
      · rcases ih _ p hp with hp | ⟨l2, hl2, hp⟩
        · rcases List.mem_cons.mp hp with hp | hp
          · exact Or.inr ⟨l, List.mem_cons_self l ls, hp⟩
          · exact Or.inl hp
        · exact Or.inr ⟨l2, List.mem_cons_of_mem l hl2, hp⟩
    · rw [if_neg hn] at hp
      split at hp
      · exact Or.inl (List.mem_reverse.mp hp)
      · rcases ih _ p hp with hp | ⟨l2, hl2, hp⟩
        · exact Or.inl hp
        · exact Or.inr ⟨l2, List.mem_cons_of_mem l hl2, hp⟩

theorem contextKeyPoints_no_nl (context : Str) :
    ∀ p ∈ contextKeyPoints context, '\n' ∉ p := by
  intro p hp
  unfold contextKeyPoints at hp
  rcases mem_keyPointsLoop _ _ p hp with hp | ⟨l, hl, hp⟩
  · exact absurd hp (List.not_mem_nil p)
  · obtain ⟨l0, hl0, rfl⟩ := List.mem_map.mp hl
    have hl0m : l0 ∈ pySplitlines context := List.mem_of_mem_filter hl0
    exact hp ▸ normalize_point_no_nl
      (fun hm => mem_pySplitlines_no_nl context l0 hl0m (stripSet_subset _ _ hm))

theorem fallbackKeyPoints_no_nl (context : Str) :
    ∀ p ∈ fallbackKeyPoints context, '\n' ∉ p := by
  intro p hp
  simp only [fallbackKeyPoints] at hp
  split at hp
  · simp only [List.mem_singleton] at hp
    subst hp
    decide
  · exact contextKeyPoints_no_nl context p hp

theorem ensure_sentence_no_nl {pre f fb : Str} (hpre : '\n' ∉ pre) (hf : '\n' ∉ f)
    (hfb : '\n' ∉ fb) : '\n' ∉ _ensure_sentence pre f fb := by
  intro hm
  simp only [_ensure_sentence] at hm
  rcases List.mem_append.mp hm with hm | hm
  · rcases List.mem_append.mp hm with hm | hm
    · exact hpre hm
    · split at hm
      · exact hfb hm
      · exact hf (pyStrip_subset _ (stripSet_subset _ _ hm))
  · simp only [List.mem_singleton] at hm
    exact absurd hm.symm (by decide)

/-! ## The split/join round trip -/

theorem splitNL_cons (c : Char) (rest : Str) :
    splitNL (c :: rest) = if c = '\n' then [] :: splitNL rest else
      match splitNL rest with
      | [] => [[c]]
      | l :: ls => (c :: l) :: ls := rfl

theorem splitNL_no_nl_eq {a : Str} (ha : '\n' ∉ a) : splitNL a = [a] := by
  induction a with
  | nil => rfl
  | cons c rest ih =>
    have hc : ¬ c = '\n' := fun h => ha (h ▸ List.mem_cons_self c rest)
    have hr : '\n' ∉ rest := fun h => ha (List.mem_cons_of_mem c h)
    rw [splitNL_cons, if_neg hc, ih hr]

theorem splitNL_append_cons {a : Str} (b : Str) (ha : '\n' ∉ a) :
    splitNL (a ++ '\n' :: b) = a :: splitNL b := by
  induction a with
  | nil => rfl
  | cons c rest ih =>
    have hc : ¬ c = '\n' := fun h => ha (h ▸ List.mem_cons_self c rest)
    have hr : '\n' ∉ rest := fun h => ha (List.mem_cons_of_mem c h)
    show splitNL (c :: (rest ++ '\n' :: b)) = (c :: rest) :: splitNL b
    rw [splitNL_cons, if_neg hc, ih hr]

theorem splitNL_joinNL :
    ∀ ls : List Str, ls ≠ [] → (∀ l ∈ ls, '\n' ∉ l) → splitNL (joinNL ls) = ls := by
  intro ls
  induction ls with
  | nil => intro h; exact absurd rfl h
  | cons l ls ih =>
    intro _ hfree
    cases ls with
    | nil => exact splitNL_no_nl_eq (hfree l (List.mem_cons_self l []))
    | cons l2 rest =>
      show splitNL (l ++ '\n' :: joinNL (l2 :: rest)) = _
      rw [splitNL_append_cons _ (hfree l (List.mem_cons_self l _)),
        ih (by simp) (fun x hx => hfree x (List.mem_cons_of_mem l hx))]

theorem pySplitlines_joinNL (ls : List Str) (hne : ls ≠ [])
    (h : ∀ l ∈ ls, '\n' ∉ l) (hlast : ls.getLast? ≠ some []) :
    pySplitlines (joinNL ls) = ls := by
  unfold pySplitlines
  rw [splitNL_joinNL ls hne h, if_neg hlast]

theorem filler_eq : filler_sentence = fillerBody ++ ['。'] := by decide

theorem filler_len : filler_sentence.length = 35 := by decide

theorem rdropWhile_eq_self_of_getLast {p : Char → Bool} {l : Str}
    (h : ∀ c, l.getLast? = some c → p c = false) : l.rdropWhile p = l := by
  rw [List.rdropWhile_eq_self_iff]
  intro hl
  have := h (l.getLast hl) (List.getLast?_eq_getLast l hl)
  simp [this]

theorem rdropWhile_getLast?_not {p : Char → Bool} {l : Str} {c : Char}
    (h : (l.rdropWhile p).getLast? = some c) : p c = false := by
  have hne : l.rdropWhile p ≠ [] := by
    intro he
    rw [he] at h
    simp at h
  have h2 := List.rdropWhile_last_not p l hne
  have h3 := List.getLast?_eq_getLast _ hne
  rw [h3] at h
  have h4 := Option.some_inj.mp h
  rw [← h4]
  simpa using h2

theorem endsOne_rstrip {z : Str} (hz : z.getLast? ≠ some '。') :
    rstripSet "。".data (z ++ ['。']) = z := by
  unfold rstripSet
  rw [List.rdropWhile_concat, if_pos (by decide)]
  apply rdropWhile_eq_self_of_getLast
  intro c hc
  have hcne : c ≠ '。' := fun he => hz (he ▸ hc)
  have hmem : c ∈ "。".data ↔ c = '。' := by
    show c ∈ ['。'] ↔ c = '。'
    exact List.mem_singleton
  simp [hmem, hcne]

theorem padStep_endsOne {c : Str} (h : EndsOne c) :
    EndsOne (rstripSet "。".data c ++ "。".data ++ filler_sentence) := by
  obtain ⟨z, rfl, hz⟩ := h
  rw [endsOne_rstrip hz]
  refine ⟨z ++ '。' :: fillerBody, ?_, ?_⟩
  · rw [filler_eq]
    simp
  · rw [List.getLast?_append_of_ne_nil z (List.cons_ne_nil '。' fillerBody)]
    decide

theorem padStep_length {c : Str} (h : EndsOne c) :
    (rstripSet "。".data c ++ "。".data ++ filler_sentence).length =
      c.length + filler_sentence.length := by
  obtain ⟨z, rfl, hz⟩ := h
  rw [endsOne_rstrip hz]
  simp only [List.length_append, List.length_cons, List.length_nil]

theorem padStep_three (a b c : Str) :
    padStep [a, b, c] = [a, b, rstripSet "。".data c ++ "。".data ++ filler_sentence] := rfl

theorem padLoop_three_inv (P : Str → Prop)
    (hstep : ∀ x, EndsOne x → P x → P (rstripSet "。".data x ++ "。".data ++ filler_sentence)) :
    ∀ (fuel : Nat) (a b c : Str), EndsOne c → P c →
      245 < 35 * fuel + (a.length + b.length + c.length) →
      ∃ c2, padLoop fuel [a, b, c] = [a, b, c2] ∧ EndsOne c2 ∧ P c2 ∧
        ¬ (a.length + b.length + c2.length < 210 ∧
            a.length + b.length + c2.length + 35 ≤ 280) := by
  intro fuel
  induction fuel with
  | zero =>
    intro a b c hE hP hlen
    exact ⟨c, rfl, hE, hP, by omega⟩
  | succ fuel ih =>
    intro a b c hE hP hlen
    have hflat : ([a, b, c] : List Str).flatten.length = a.length + b.length + c.length := by
      simp only [List.flatten_cons, List.flatten_nil, List.append_nil, List.length_append]
      omega
    simp only [padLoop]
    by_cases hg : ([a, b, c] : List Str).flatten.length < 210 ∧
        ([a, b, c] : List Str).flatten.length + filler_sentence.length ≤ 280
    · rw [if_pos hg, padStep_three]
      have hlen2 : 245 < 35 * fuel +
          (a.length + b.length +
            (rstripSet "。".data c ++ "。".data ++ filler_sentence).length) := by
        rw [padStep_length hE, filler_len]
        omega
      exact ih a b _ (padStep_endsOne hE) (hstep c hE hP) hlen2
    · rw [if_neg hg]
      refine ⟨c, rfl, hE, hP, ?_⟩
      rw [hflat, filler_len] at hg
      exact hg

/-! ## Shape of the fallback paragraphs -/

theorem ensure_endsOne (pre f fb : Str) (hfb : fb ≠ []) (hfbl : fb.getLast? ≠ some '。') :
    EndsOne (_ensure_sentence pre f fb) := by
  simp only [_ensure_sentence]
  by_cases hn : stripSet "。．. ".data (pyStrip f) = []
  · rw [if_pos hn]
    refine ⟨pre ++ fb, rfl, ?_⟩
    rw [List.getLast?_append_of_ne_nil pre hfb]
    exact hfbl
  · rw [if_neg hn]
    refine ⟨pre ++ stripSet "。．. ".data (pyStrip f), rfl, ?_⟩
    rw [List.getLast?_append_of_ne_nil pre hn]
    intro hc
    have hp := rdropWhile_getLast?_not (p := fun c => decide (c ∈ "。．. ".data)) hc
    simp at hp

theorem summaryParagraph_endsOne (context : Str) : EndsOne (summaryParagraph context) := by
  unfold summaryParagraph
  exact ensure_endsOne _ _ _ (by decide) (by decide)

theorem keyPoint_getD_no_nl (context : Str) (i : Nat) (d : Str) (hd : '\n' ∉ d) :
    '\n' ∉ ((fallbackKeyPoints context)[i]?).getD d := by
  cases h : (fallbackKeyPoints context)[i]? with
  | none => simpa using hd
  | some x =>
    simp only [Option.getD_some]
    exact fallbackKeyPoints_no_nl context x (List.getElem?_mem h)

theorem leadParagraph_no_nl {hint : Option Str} (hh : '\n' ∉ hintSentence hint) :
    '\n' ∉ leadParagraph hint := by
  have hlead : '\n' ∉ pyStrip ("今日の出来事は提供された資料をもとに整理しました。".data ++ hintSentence hint) := by
    intro hm
    rcases List.mem_append.mp (pyStrip_subset _ hm) with h | h
    · revert h
      decide
    · exact hh h
  intro hm
  simp only [leadParagraph] at hm
  split at hm
  · exact hlead hm
  · rcases List.mem_append.mp hm with hm | hm
    · exact hlead hm
    · revert hm
      decide

theorem bodyParagraph_no_nl (context : Str) : '\n' ∉ bodyParagraph context := by
  intro hm
  rcases List.mem_append.mp hm with hm | hm
  · exact ensure_sentence_no_nl (by decide) (keyPoint_getD_no_nl context 0 _ (by decide))
      (by decide) hm
  · exact ensure_sentence_no_nl (by decide) (keyPoint_getD_no_nl context 1 _ (by decide))
      (by decide) hm

theorem summaryParagraph_no_nl (context : Str) : '\n' ∉ summaryParagraph context :=
  ensure_sentence_no_nl (by decide) (keyPoint_getD_no_nl context 2 _ (by decide)) (by decide)

theorem padStep_no_nl {x : Str} (hx : '\n' ∉ x) :
    '\n' ∉ rstripSet "。".data x ++ "。".data ++ filler_sentence := by
  intro hm
  rcases List.mem_append.mp hm with hm | hm
  · rcases List.mem_append.mp hm with hm | hm
    · exact hx ((rstripSet_infix_self_self _ _).subset hm)
    · revert hm
      decide
  · revert hm
    decide

/-- C4 (counterexample): a hint containing a newline makes the fallback emit
five lines, not four — "always outputs exactly 4 lines" fails as stated. -/
theorem fallback_not_always_four_lines :
    (pySplitlines (_fallback_generate "2025-09-24".data [] (some "a\nb".data))).length = 5 ∧
      (5 : Nat) ≠ 4 := by
  refine ⟨by decide, by decide⟩

/-- C4 (amended): whenever the date and the hint sentence contain no newline
character, the fallback output splits into exactly the header line (`{date}
の記録`) plus the 3 body paragraphs — 4 lines; the padding loop stops only
once the body is at least 210 characters long or one more filler would push
it past 280; and for empty context with no hint the body length lands in
[200, 280] (it is exactly 234). -/
theorem fallback_shape (date context : Str) (hint : Option Str)
    (hd : '\n' ∉ date) (hh : '\n' ∉ hintSentence hint) :
    pySplitlines (_fallback_generate date context hint) =
        (date ++ " の記録".data) :: fallbackParagraphs context hint ∧
      (fallbackParagraphs context hint).length = 3 ∧
      (210 ≤ ((fallbackParagraphs context hint).flatten).length ∨
        280 < ((fallbackParagraphs context hint).flatten).length + filler_sentence.length) ∧
      200 ≤ ((fallbackParagraphs [] none).flatten).length ∧
      ((fallbackParagraphs [] none).flatten).length ≤ 280 := by
  obtain ⟨c2, heq, hE2, hP2, hexit⟩ :=
    padLoop_three_inv (fun x => '\n' ∉ x) (fun x _ hx => padStep_no_nl hx) 300
      (leadParagraph hint) (bodyParagraph context) (summaryParagraph context)
      (summaryParagraph_endsOne context) (summaryParagraph_no_nl context)
      (by omega)
  have hfp : fallbackParagraphs context hint =
      [leadParagraph hint, bodyParagraph context, c2] := by
    unfold fallbackParagraphs
    exact heq
  have hc2ne : c2 ≠ [] := by
    obtain ⟨z, rfl, _⟩ := hE2
    simp
  refine ⟨?_, ?_, ?_, by decide, by decide⟩
  · unfold _fallback_generate
    rw [hfp]
    apply pySplitlines_joinNL
    · simp
    · intro l hl
      rcases List.mem_cons.mp hl with hl | hl
      · subst hl
        intro hm
        rcases List.mem_append.mp hm with hm | hm
        · exact hd hm
        · revert hm
          decide
      · rcases List.mem_cons.mp hl with hl | hl
        · exact hl ▸ leadParagraph_no_nl hh
        · rcases List.mem_cons.mp hl with hl | hl
          · exact hl ▸ bodyParagraph_no_nl context
          · rcases List.mem_cons.mp hl with hl | hl
            · exact hl ▸ hP2
            · exact absurd hl (List.not_mem_nil l)
    · intro hlast
      simp only [List.getLast?_cons_cons, List.getLast?_singleton, Option.some_inj] at hlast
      exact hc2ne hlast
  · rw [hfp]
    rfl
  · rw [hfp]
    have hflat : ([leadParagraph hint, bodyParagraph context, c2] : List Str).flatten.length =
        (leadParagraph hint).length + (bodyParagraph context).length + c2.length := by
      simp only [List.flatten_cons, List.flatten_nil, List.append_nil, List.length_append]
      omega
    rw [hflat, filler_len]
    omega

theorem fallback_shape_witness :
    ('\n' ∉ "2025-09-24".data) ∧ ('\n' ∉ hintSentence none) ∧
      (pySplitlines (_fallback_generate "2025-09-24".data [] none) =
          ("2025-09-24".data ++ " の記録".data) :: fallbackParagraphs [] none ∧
        (fallbackParagraphs [] none).length = 3 ∧
        (210 ≤ ((fallbackParagraphs [] none).flatten).length ∨
          280 < ((fallbackParagraphs [] none).flatten).length + filler_sentence.length) ∧
        200 ≤ ((fallbackParagraphs [] none).flatten).length ∧
        ((fallbackParagraphs [] none).flatten).length ≤ 280) :=
  ⟨by decide, by decide, fallback_shape "2025-09-24".data [] none (by decide) (by decide)⟩

/-! ## Banned-word freeness of the fallback output -/

theorem mem_of_getLast?_eq {l : Str} {c : Char} (h : l.getLast? = some c) : c ∈ l := by
  have hne : l ≠ [] := by
    intro he
    rw [he] at h
    simp at h
  have h2 := List.getLast?_eq_getLast l hne
  rw [h2] at h
  exact (Option.some_inj.mp h) ▸ List.getLast_mem hne

theorem padStep_banned {w x : Str} (hx : ¬ w <:+: x)
    (hfil : ¬ w <:+: "。".data ++ filler_sentence) (hp : '。' ∉ w) :
    ¬ w <:+: rstripSet "。".data x ++ "。".data ++ filler_sentence := by
  rw [List.append_assoc]
  refine not_infix_append_right_head
    (fun hinf => hx (hinf.trans (rstripSet_infix_self_self _ _))) hfil ?_
  intro c hc
  have h2 : some '。' = some c := hc
  rw [← Option.some_inj.mp h2]
  exact hp

theorem keyPoint_getD_banned {w : Str} (context : Str) (i : Nat) (d : Str)
    (hkp : ∀ p ∈ contextKeyPoints context, ¬ w <:+: p)
    (hdef : ¬ w <:+: "文脈情報が不足していますが、穏やかな一日だったと記録します".data)
    (hd : ¬ w <:+: d) :
    ¬ w <:+: ((fallbackKeyPoints context)[i]?).getD d := by
  cases h : (fallbackKeyPoints context)[i]? with
  | none => simpa using hd
  | some x =>
    simp only [Option.getD_some]
    have hx : x ∈ fallbackKeyPoints context := List.getElem?_mem h
    simp only [fallbackKeyPoints] at hx
    split at hx
    · simp only [List.mem_singleton] at hx
      exact hx ▸ hdef
    · exact hkp x hx

theorem ensure_banned {w : Str} (pre f fb : Str)
    (hpre : ¬ w <:+: pre) (hprelast : ∀ c, pre.getLast? = some c → c ∉ w)
    (hf : ¬ w <:+: f) (hfb : ¬ w <:+: fb) (hper : '。' ∉ w) (hwne : w ≠ []) :
    ¬ w <:+: _ensure_sentence pre f fb := by
  simp only [_ensure_sentence]
  have hnf : ¬ w <:+:
      (if stripSet "。．. ".data (pyStrip f) = [] then fb
        else stripSet "。．. ".data (pyStrip f)) := by
    split
    · exact hfb
    · intro hinf
      exact hf (hinf.trans ((stripSet_infix_self _ _).trans (pyStrip_infix_self f)))
  refine not_infix_append_right_head
    (not_infix_append_left_last hpre hnf hprelast) (not_infix_singleton hwne hper) ?_
  intro c hc
  have h2 : some '。' = some c := hc
  rw [← Option.some_inj.mp h2]
  exact hper

theorem leadParagraph_banned {w : Str} (hint : Option Str)
    (hh_b : ¬ w <:+: hintSentence hint)
    (hlit : ¬ w <:+: "今日の出来事は提供された資料をもとに整理しました。".data)
    (hper : '。' ∉ w) (hwne : w ≠ []) :
    ¬ w <:+: leadParagraph hint := by
  have hlead0 : ¬ w <:+:
      pyStrip ("今日の出来事は提供された資料をもとに整理しました。".data ++ hintSentence hint) := by
    intro hinf
    have h2 := hinf.trans (pyStrip_infix_self _)
    revert h2
    refine not_infix_append_left_last hlit hh_b ?_
    intro c hc
    have h3 : ("今日の出来事は提供された資料をもとに整理しました。".data : Str).getLast? = some '。' := by
      decide
    rw [h3] at hc
    rw [← Option.some_inj.mp hc]
    exact hper
  simp only [leadParagraph]
  split
  · exact hlead0
  · refine not_infix_append_right_head hlead0 (not_infix_singleton hwne hper) ?_
    intro c hc
    have h2 : some '。' = some c := hc
    rw [← Option.some_inj.mp h2]
    exact hper

theorem bodyParagraph_banned {w : Str} (context : Str)
    (hkp : ∀ p ∈ contextKeyPoints context, ¬ w <:+: p)
    (hdef : ¬ w <:+: "文脈情報が不足していますが、穏やかな一日だったと記録します".data)
    (hm : ¬ w <:+: "静かに過ごしました".data)
    (ha2 : ¬ w <:+: "落ち着いた時間が流れました".data)
    (hpre1 : ¬ w <:+: "午前中は".data) (hpre2 : ¬ w <:+: "午後は".data)
    (hgo : '午' ∉ w) (hha : 'は' ∉ w) (hper : '。' ∉ w) (hwne : w ≠ []) :
    ¬ w <:+: bodyParagraph context := by
  unfold bodyParagraph
  refine not_infix_append_right_head ?_ ?_ ?_
  · refine ensure_banned _ _ _ hpre1 ?_ (keyPoint_getD_banned context 0 _ hkp hdef hm) hm hper hwne
    intro c hc
    have h3 : ("午前中は".data : Str).getLast? = some 'は' := by decide
    rw [h3] at hc
    rw [← Option.some_inj.mp hc]
    exact hha
  · refine ensure_banned _ _ _ hpre2 ?_ (keyPoint_getD_banned context 1 _ hkp hdef ha2) ha2 hper hwne
    intro c hc
    have h3 : ("午後は".data : Str).getLast? = some 'は' := by decide
    rw [h3] at hc
    rw [← Option.some_inj.mp hc]
    exact hha
  · intro c hc
    have h2 : some '午' = some c := hc
    rw [← Option.some_inj.mp h2]
    exact hgo

theorem summaryParagraph_banned {w : Str} (context : Str)
    (hkp : ∀ p ∈ contextKeyPoints context, ¬ w <:+: p)
    (hdef : ¬ w <:+: "文脈情報が不足していますが、穏やかな一日だったと記録します".data)
    (hc3 : ¬ w <:+: "一日の終わりに簡単な振り返りを行い、記録を整えました".data)
    (hfb3 : ¬ w <:+: "記録を整えました".data)
    (hpre3 : ¬ w <:+: "一日の締めくくりとして".data)
    (hte : 'て' ∉ w) (hper : '。' ∉ w) (hwne : w ≠ []) :
    ¬ w <:+: summaryParagraph context := by
  unfold summaryParagraph
  refine ensure_banned _ _ _ hpre3 ?_ (keyPoint_getD_banned context 2 _ hkp hdef hc3) hfb3 hper hwne
  intro c hc
  have h3 : ("一日の締めくくりとして".data : Str).getLast? = some 'て' := by decide
  rw [h3] at hc
  rw [← Option.some_inj.mp hc]
  exact hte

/-! ## Header and structure facts about the fallback output -/

theorem ne_nil_of_getLast?_eq_some {l : Str} {c : Char} (h : l.getLast? = some c) : l ≠ [] := by
  intro he
  rw [he] at h
  simp at h

theorem pyStrip_fixed_parts {date : Str} (hd_trim : pyStrip date = date) :
    pyLStrip date = date ∧ pyRStrip date = date := by
  have h1 : (List.rdropWhile pyWSChar date).length ≤ date.length :=
    (List.rdropWhile_prefix pyWSChar date).length_le
  have h2 : (List.dropWhile pyWSChar (List.rdropWhile pyWSChar date)).length ≤
      (List.rdropWhile pyWSChar date).length :=
    (List.dropWhile_suffix pyWSChar (l := List.rdropWhile pyWSChar date)).length_le
  have h3 : (List.dropWhile pyWSChar (List.rdropWhile pyWSChar date)).length = date.length := by
    have he : pyStrip date = List.dropWhile pyWSChar (List.rdropWhile pyWSChar date) := rfl
    rw [← he, hd_trim]
  have hR : pyRStrip date = date :=
    (List.rdropWhile_prefix pyWSChar date).eq_of_length (by omega)
  refine ⟨?_, hR⟩
  calc pyLStrip date = pyLStrip (pyRStrip date) := by rw [hR]
    _ = pyStrip date := rfl
    _ = date := hd_trim

theorem head_not_ws {l : Str} (hl : pyLStrip l = l) {c : Char} {rest : Str}
    (he : l = c :: rest) : pyWSChar c = false := by
  subst he
  by_cases hp : pyWSChar c = true
  · exfalso
    unfold pyLStrip at hl
    rw [List.dropWhile_cons_of_pos hp] at hl
    have hle := (List.dropWhile_sublist pyWSChar (l := rest)).length_le
    rw [hl] at hle
    simp at hle
  · simpa using hp

theorem pyLStrip_append {a r : Str} {c : Char} {rest : Str} (he : a = c :: rest)
    (hc : pyWSChar c = false) : pyLStrip (a ++ r) = a ++ r := by
  subst he
  show List.dropWhile pyWSChar (c :: (rest ++ r)) = (c :: rest) ++ r
  rw [List.dropWhile_cons_of_neg (by simp [hc])]
  rfl

theorem pyRStrip_eq_self_of_last {l : Str} {c : Char} (h : l.getLast? = some c)
    (hc : pyWSChar c = false) : pyRStrip l = l := by
  apply rdropWhile_eq_self_of_getLast
  intro d hd
  rw [h] at hd
  rw [← Option.some_inj.mp hd]
  exact hc

theorem pyStrip_ne_nil_of_mem {l : Str} {c : Char} (hc : c ∈ l) (hcws : pyWSChar c = false) :
    pyStrip l ≠ [] := by
  intro hps
  unfold pyStrip pyLStrip at hps
  have hX := List.dropWhile_eq_nil_iff.mp hps
  have hc2 : c ∈ l.reverse := List.mem_reverse.mpr hc
  rw [← List.takeWhile_append_dropWhile (p := pyWSChar) (l := l.reverse)] at hc2
  rcases List.mem_append.mp hc2 with h | h
  · have := List.mem_takeWhile_imp h
    simp [hcws] at this
  · have hcr : c ∈ List.rdropWhile pyWSChar l := by
      show c ∈ (l.reverse.dropWhile pyWSChar).reverse
      exact List.mem_reverse.mpr h
    have := hX c hcr
    simp [hcws] at this

theorem leadParagraph_getLast (hint : Option Str) :
    (leadParagraph hint).getLast? = some '。' := by
  simp only [leadParagraph]
  split
  · rename_i h
    exact h
  · exact List.getLast?_concat _

theorem ensure_getLast (pre f fb : Str) :
    (_ensure_sentence pre f fb).getLast? = some '。' := by
  simp only [_ensure_sentence]
  exact List.getLast?_concat _

theorem bodyParagraph_getLast (context : Str) :
    (bodyParagraph context).getLast? = some '。' := by
  unfold bodyParagraph
  rw [List.getLast?_append_of_ne_nil _ (ne_nil_of_getLast?_eq_some (ensure_getLast _ _ _))]
  exact ensure_getLast _ _ _

/-- C5 (counterexample): a hint containing a denylisted word flows verbatim
into the fallback output, so `self_check` on that output fails the
banned_words check — the synthesizer *can* emit denylisted words. -/
theorem self_check_fallback_banned_words_can_fail :
    checkNamed
        (self_check (_fallback_generate "2025-09-24".data [] (some "超うれしい".data))
          (some "2025-09-24".data)) "banned_words".data = some false := by decide

set_option maxHeartbeats 4000000 in
/-- C5 (amended): whenever the date is trimmed, non-empty, newline-free and
free of denylisted words, the hint sentence is newline-free and free of
denylisted words, and every extracted key point of the context is free of
denylisted words, then `self_check` on the deterministic fallback output,
with the same expected date, passes the header_format, structure, and
banned_words checks. -/
theorem self_check_fallback_three_checks_pass (date context : Str) (hint : Option Str)
    (hd_trim : pyStrip date = date) (hd_ne : date ≠ []) (hd_nl : '\n' ∉ date)
    (hd_b : ∀ w ∈ BANNED_WORDS, ¬ w <:+: date)
    (hh_nl : '\n' ∉ hintSentence hint)
    (hh_b : ∀ w ∈ BANNED_WORDS, ¬ w <:+: hintSentence hint)
    (hkp : ∀ p ∈ contextKeyPoints context, ∀ w ∈ BANNED_WORDS, ¬ w <:+: p) :
    checkNamed (self_check (_fallback_generate date context hint) (some date))
        "header_format".data = some true ∧
      checkNamed (self_check (_fallback_generate date context hint) (some date))
        "structure".data = some true ∧
      checkNamed (self_check (_fallback_generate date context hint) (some date))
        "banned_words".data = some true := by
  have hsummb : ∀ w ∈ BANNED_WORDS, ¬ w <:+: summaryParagraph context := by
    intro w hw
    simp only [BANNED_WORDS] at hw
    refine summaryParagraph_banned context (fun p hp => hkp p hp w (by simpa [BANNED_WORDS] using hw))
      ?_ ?_ ?_ ?_ ?_ ?_ ?_ <;> fin_cases hw <;> decide
  have hstep : ∀ x, EndsOne x →
      (('\n' ∉ x) ∧ ∀ w ∈ BANNED_WORDS, ¬ w <:+: x) →
      (('\n' ∉ rstripSet "。".data x ++ "。".data ++ filler_sentence) ∧
        ∀ w ∈ BANNED_WORDS, ¬ w <:+: rstripSet "。".data x ++ "。".data ++ filler_sentence) := by
    intro x _ hx
    refine ⟨padStep_no_nl hx.1, ?_⟩
    intro w hw
    have hb := hx.2 w hw
    simp only [BANNED_WORDS] at hw
    refine padStep_banned hb ?_ ?_ <;> fin_cases hw <;> decide
  obtain ⟨c2, heq, hE2, hP2, _⟩ :=
    padLoop_three_inv (fun x => ('\n' ∉ x) ∧ ∀ w ∈ BANNED_WORDS, ¬ w <:+: x) hstep 300
      (leadParagraph hint) (bodyParagraph context) (summaryParagraph context)
      (summaryParagraph_endsOne context)
      ⟨summaryParagraph_no_nl context, hsummb⟩ (by omega)
  have hfp : fallbackParagraphs context hint =
      [leadParagraph hint, bodyParagraph context, c2] := by
    unfold fallbackParagraphs
    exact heq
  have hc2last : c2.getLast? = some '。' := by
    obtain ⟨z, rfl, _⟩ := hE2
    exact List.getLast?_concat z
  have hsplit : pySplitlines (_fallback_generate date context hint) =
      [date ++ " の記録".data, leadParagraph hint, bodyParagraph context, c2] := by
    unfold _fallback_generate
    rw [hfp]
    apply pySplitlines_joinNL _ (by simp)
    · intro l hl
      rcases List.mem_cons.mp hl with hl | hl
      · subst hl
        intro hm
        rcases List.mem_append.mp hm with hm | hm
        · exact hd_nl hm
        · revert hm
          decide
      · rcases List.mem_cons.mp hl with hl | hl
        · exact hl ▸ leadParagraph_no_nl hh_nl
        · rcases List.mem_cons.mp hl with hl | hl
          · exact hl ▸ bodyParagraph_no_nl context
          · rcases List.mem_cons.mp hl with hl | hl
            · exact hl ▸ hP2.1
            · exact absurd hl (List.not_mem_nil l)
    · intro hlast
      simp only [List.getLast?_cons_cons, List.getLast?_singleton, Option.some_inj] at hlast
      exact ne_nil_of_getLast?_eq_some hc2last hlast
  have htext : ∀ w ∈ BANNED_WORDS, ¬ w <:+: _fallback_generate date context hint := by
    intro w hw
    unfold _fallback_generate
    rw [hfp]
    have hwb := hd_b w hw
    have hwh := hh_b w hw
    have hwkp : ∀ p ∈ contextKeyPoints context, ¬ w <:+: p := fun p hp => hkp p hp w hw
    have hwc2 := hP2.2 w hw
    simp only [BANNED_WORDS] at hw
    refine not_infix_joinNL ?_ ?_ _ ?_
    · fin_cases hw <;> decide
    · fin_cases hw <;> decide
    · intro l hl
      rcases List.mem_cons.mp hl with hl | hl
      · subst hl
        refine not_infix_append_right_head hwb ?_ ?_
        · fin_cases hw <;> decide
        · intro c hc
          have h2 : some ' ' = some c := hc
          rw [← Option.some_inj.mp h2]
          fin_cases hw <;> decide
      · rcases List.mem_cons.mp hl with hl | hl
        · subst hl
          refine leadParagraph_banned hint hwh ?_ ?_ ?_ <;> fin_cases hw <;> decide
        · rcases List.mem_cons.mp hl with hl | hl
          · subst hl
            refine bodyParagraph_banned context hwkp ?_ ?_ ?_ ?_ ?_ ?_ ?_ ?_ ?_ <;>
              fin_cases hw <;> decide
          · rcases List.mem_cons.mp hl with hl | hl
            · exact hl ▸ hwc2
            · exact absurd hl (List.not_mem_nil l)
  have hexp : safe_str (some date) = date := hd_trim
  obtain ⟨cd, restd, hdate_eq⟩ : ∃ c r, date = c :: r := by
    cases date with
    | nil => exact absurd rfl hd_ne
    | cons c r => exact ⟨c, r, rfl⟩
  have hLR := pyStrip_fixed_parts hd_trim
  have hhead_ws : pyWSChar cd = false := head_not_ws hLR.1 hdate_eq
  have h0last : (date ++ " の記録".data).getLast? = some '録' := by
    rw [List.getLast?_append_of_ne_nil date (by decide)]
    decide
  have hR0 : pyRStrip (date ++ " の記録".data) = date ++ " の記録".data :=
    pyRStrip_eq_self_of_last h0last (by decide)
  have hS0 : pyStrip (date ++ " の記録".data) = date ++ " の記録".data := by
    unfold pyStrip
    rw [show pyRStrip (date ++ " の記録".data) = date ++ " の記録".data from hR0]
    exact pyLStrip_append hdate_eq hhead_ws
  have hR1 : pyRStrip (leadParagraph hint) = leadParagraph hint :=
    pyRStrip_eq_self_of_last (leadParagraph_getLast hint) (by decide)
  have hR2 : pyRStrip (bodyParagraph context) = bodyParagraph context :=
    pyRStrip_eq_self_of_last (bodyParagraph_getLast context) (by decide)
  have hR3 : pyRStrip c2 = c2 := pyRStrip_eq_self_of_last hc2last (by decide)
  have hnb1 : ¬ pyStrip (leadParagraph hint) = [] :=
    pyStrip_ne_nil_of_mem (mem_of_getLast?_eq (leadParagraph_getLast hint)) (by decide)
  have hnb2 : ¬ pyStrip (bodyParagraph context) = [] :=
    pyStrip_ne_nil_of_mem (mem_of_getLast?_eq (bodyParagraph_getLast context)) (by decide)
  have hnb3 : ¬ pyStrip c2 = [] :=
    pyStrip_ne_nil_of_mem (mem_of_getLast?_eq hc2last) (by decide)
  have hfilter : BANNED_WORDS.filter
      (fun w => !w.isEmpty && containsSub (_fallback_generate date context hint) w) = [] := by
    rw [List.filter_eq_nil_iff]
    intro w hw
    simp [containsSub, htext w hw]
  have hn1 : (decide ((("date_presence".data : Str)) = "header_format".data)) = false := by decide
  have hn2 : (decide ((("banned_words".data : Str)) = "header_format".data)) = false := by decide
  have hn3 : (decide ((("header_format".data : Str)) = "header_format".data)) = true := by decide
  have hn4 : (decide ((("date_presence".data : Str)) = "structure".data)) = false := by decide
  have hn5 : (decide ((("banned_words".data : Str)) = "structure".data)) = false := by decide
  have hn6 : (decide ((("header_format".data : Str)) = "structure".data)) = false := by decide
  have hn7 : (decide ((("structure".data : Str)) = "structure".data)) = true := by decide
  have hn8 : (decide ((("date_presence".data : Str)) = "banned_words".data)) = false := by decide
  have hn9 : (decide ((("banned_words".data : Str)) = "banned_words".data)) = true := by decide
  refine ⟨?_, ?_, ?_⟩
  · simp [self_check, checkNamed, hsplit, hexp, hd_ne, hR0, hR1, hR2, hR3, hS0, hfilter,
      List.find?, hn1, hn2, hn3]
  · simp [self_check, checkNamed, hsplit, hexp, hd_ne, hR0, hR1, hR2, hR3, hS0, hfilter,
      hnb1, hnb2, hnb3, List.find?, hn4, hn5, hn6, hn7]
  · simp [self_check, checkNamed, hsplit, hexp, hd_ne, hfilter, List.find?, hn8, hn9]

theorem self_check_fallback_three_checks_pass_witness :
    (pyStrip "2025-09-24".data = "2025-09-24".data) ∧ ("2025-09-24".data : Str) ≠ [] ∧
      ('\n' ∉ ("2025-09-24".data : Str)) ∧
      (∀ w ∈ BANNED_WORDS, ¬ w <:+: "2025-09-24".data) ∧
      ('\n' ∉ hintSentence none) ∧ (∀ w ∈ BANNED_WORDS, ¬ w <:+: hintSentence none) ∧
      (∀ p ∈ contextKeyPoints [], ∀ w ∈ BANNED_WORDS, ¬ w <:+: p) ∧
      (checkNamed (self_check (_fallback_generate "2025-09-24".data [] none)
            (some "2025-09-24".data)) "header_format".data = some true ∧
        checkNamed (self_check (_fallback_generate "2025-09-24".data [] none)
            (some "2025-09-24".data)) "structure".data = some true ∧
        checkNamed (self_check (_fallback_generate "2025-09-24".data [] none)
            (some "2025-09-24".data)) "banned_words".data = some true) :=
  ⟨by decide, by decide, by decide, by decide, by decide, by decide, by decide,
    self_check_fallback_three_checks_pass "2025-09-24".data [] none (by decide) (by decide)
      (by decide) (by decide) (by decide) (by decide) (by decide)⟩
